import Mathlib

/-! Trust carousel controller of the clinic site (`src/js/main.js`, `initTrustCarousel`).

The carousel is a closure over five mutable variables (`currentIndex`,
`autoAdvanceTimer`, `isTransitioning`, `touchStartX`, `touchEndX`), the DOM nodes it
writes to (the track transform, the `aria-selected` flag of every indicator, the
`aria-live` attribute) and the timer table of the window (`setTimeout`, `setInterval`,
`clearInterval`).  The embedding passes all of that explicitly in one record.

Modelling conventions:

* JavaScript numbers that the controller handles are integers (`parseInt` results,
  `currentIndex ± 1`, `screenX`); they are `Int`, and lengths are `Nat`.
* Timer handles are the positive integers the HTML standard prescribes; the `k`-th
  handle issued by the window is `k`.  `null` is `none`, and the truthiness test
  `if (autoAdvanceTimer)` is `some id` with `id ≠ 0`.
* Time is a logical clock in milliseconds.  A timer callback may run only once its due
  time has been reached; the clock is free to run past a due time (late callbacks).
-/

namespace TrustCarousel

/-- Bodies of the one-shot callbacks handed to `setTimeout` by the carousel:
`() => { isTransitioning = false; }` and `startAutoAdvance`. -/
inductive Callback where
  | resetTransition
  | startAutoAdvance
  deriving DecidableEq, Repr

/-- One pending `setTimeout` entry of the window timer table. -/
structure Timeout where
  id : Nat
  due : Nat
  callback : Callback
  deriving DecidableEq, Repr

/-- One live `setInterval` entry; its callback is always `nextSlide`. -/
structure Interval where
  id : Nat
  period : Nat
  due : Nat
  deriving DecidableEq, Repr

/-- Closure state of `initTrustCarousel` together with the DOM attributes it writes and
the window timer table. -/
structure Carousel where
  /-- `slides.length` -/
  slideCount : Nat
  /-- whether `.carousel-prev` was found -/
  hasPrevBtn : Bool
  /-- whether `.carousel-next` was found -/
  hasNextBtn : Bool
  currentIndex : Int
  autoAdvanceTimer : Option Nat
  isTransitioning : Bool
  touchStartX : Int
  touchEndX : Int
  /-- percentage written to `track.style.transform`, `none` while never written -/
  trackOffset : Option Int
  /-- `aria-selected` of each indicator, in document order -/
  indicators : List Bool
  /-- whether `aria-live` of the carousel is `polite` -/
  ariaLive : Bool
  /-- logical clock, milliseconds -/
  now : Nat
  /-- number of timer handles the window has issued so far -/
  timersIssued : Nat
  timeouts : List Timeout
  intervals : List Interval
  deriving DecidableEq, Repr

/-- Window primitive `setTimeout(cb, delay)`; the returned handle is discarded by every caller. -/
def setTimeout (cb : Callback) (delay : Nat) (s : Carousel) : Carousel :=
  { s with
    timersIssued := s.timersIssued + 1
    timeouts := s.timeouts ++ [⟨s.timersIssued + 1, s.now + delay, cb⟩] }

/-- Window primitive `setInterval(nextSlide, period)`: returns the fresh handle. -/
def setInterval (period : Nat) (s : Carousel) : Nat × Carousel :=
  (s.timersIssued + 1,
    { s with
      timersIssued := s.timersIssued + 1
      intervals := s.intervals ++ [⟨s.timersIssued + 1, period, s.now + period⟩] })

/-- Window primitive `clearInterval(id)`: timeouts and intervals share one handle pool. -/
def clearInterval (id : Nat) (s : Carousel) : Carousel :=
  { s with
    intervals := s.intervals.filter (fun t => t.id != id)
    timeouts := s.timeouts.filter (fun t => t.id != id) }

/-- The index stored by `goToSlide` (lines 421-427): the three-way normalisation. -/
def normalizeIndex (slideCount : Nat) (index : Int) : Int :=
  if index ≥ (slideCount : Int) then 0
  else if index < 0 then (slideCount : Int) - 1
  else index

/-- Source `goToSlide` (lines 417-447). -/
def goToSlide (index : Int) (s : Carousel) : Carousel :=
  if s.isTransitioning then s
  else
    let currentIndex := normalizeIndex s.slideCount index
    let s1 := { s with currentIndex := currentIndex, isTransitioning := true }
    let s2 := setTimeout Callback.resetTransition 500 s1
    let offset := -(currentIndex * 100)
    { s2 with
      trackOffset := some offset
      indicators := (List.range s2.indicators.length).map
        (fun (i : Nat) => decide ((i : Int) = currentIndex))
      ariaLive := true }

/-- Source `nextSlide` (line 450). -/
def nextSlide (s : Carousel) : Carousel := goToSlide (s.currentIndex + 1) s

/-- Source `prevSlide` (line 451). -/
def prevSlide (s : Carousel) : Carousel := goToSlide (s.currentIndex - 1) s

/-- Source `stopAutoAdvance` (lines 459-464). -/
def stopAutoAdvance (s : Carousel) : Carousel :=
  match s.autoAdvanceTimer with
  | some id =>
    if id ≠ 0 then { clearInterval id s with autoAdvanceTimer := none } else s
  | none => s

/-- Source `startAutoAdvance` (lines 454-457). -/
def startAutoAdvance (s : Carousel) : Carousel :=
  let r := setInterval 7000 (stopAutoAdvance s)
  { r.2 with autoAdvanceTimer := some r.1 }

/-- Source `handleSwipe` (lines 507-518). -/
def handleSwipe (s : Carousel) : Carousel :=
  let swipeThreshold : Nat := 50
  let diff := s.touchStartX - s.touchEndX
  if diff.natAbs > swipeThreshold then
    if diff > 0 then nextSlide s else prevSlide s
  else s

/-- Click listener of `.carousel-prev` (lines 468-472). -/
def onPrevClick (s : Carousel) : Carousel :=
  setTimeout Callback.startAutoAdvance 1000 (stopAutoAdvance (prevSlide s))

/-- Click listener of `.carousel-next` (lines 476-480). -/
def onNextClick (s : Carousel) : Carousel :=
  setTimeout Callback.startAutoAdvance 1000 (stopAutoAdvance (nextSlide s))

/-- Click listener of an indicator (lines 485-492); `none` is a `NaN` result of `parseInt`. -/
def onIndicatorClick (slideIndex : Option Int) (s : Carousel) : Carousel :=
  match slideIndex with
  | some i => setTimeout Callback.startAutoAdvance 1000 (stopAutoAdvance (goToSlide i s))
  | none => s

/-- Listener of `touchstart` (lines 496-499). -/
def onTouchStart (screenX : Int) (s : Carousel) : Carousel :=
  stopAutoAdvance { s with touchStartX := screenX }

/-- Listener of `touchend` (lines 501-505). -/
def onTouchEnd (screenX : Int) (s : Carousel) : Carousel :=
  setTimeout Callback.startAutoAdvance 1000 (handleSwipe { s with touchEndX := screenX })

/-- Value of `e.key` as far as the `keydown` listener distinguishes it. -/
inductive Key where
  | arrowLeft
  | arrowRight
  | other
  deriving DecidableEq, Repr

/-- Listener of `keydown` (lines 521-531). -/
def onKeydown (key : Key) (s : Carousel) : Carousel :=
  match key with
  | Key.arrowLeft => setTimeout Callback.startAutoAdvance 1000 (stopAutoAdvance (prevSlide s))
  | Key.arrowRight => setTimeout Callback.startAutoAdvance 1000 (stopAutoAdvance (nextSlide s))
  | Key.other => s

/-- Listener of `visibilitychange` (lines 538-544). -/
def onVisibilityChange (hidden : Bool) (s : Carousel) : Carousel :=
  if hidden then stopAutoAdvance s else startAutoAdvance s

/-- Body of the cooldown callback of `goToSlide` (lines 431-433). -/
def resetTransition (s : Carousel) : Carousel :=
  { s with isTransitioning := false }

/-- Running a one-shot callback. -/
def runCallback (cb : Callback) (s : Carousel) : Carousel :=
  match cb with
  | Callback.resetTransition => resetTransition s
  | Callback.startAutoAdvance => startAutoAdvance s

/-- Everything that can happen to a carousel: a DOM event reaching one of its listeners,
a due timer callback being run by the event loop, or time passing. -/
inductive Event where
  | prevClick
  | nextClick
  | indicatorClick (slideIndex : Option Int)
  | touchStart (screenX : Int)
  | touchEnd (screenX : Int)
  | keydown (key : Key)
  | mouseEnter
  | mouseLeave
  | visibilityChange (hidden : Bool)
  | timeoutFire (id : Nat)
  | intervalFire (id : Nat)
  | advance (dt : Nat)
  deriving DecidableEq, Repr

/-- The event loop takes a one-shot timer out of the table before it runs its callback. -/
def removeTimeout (id : Nat) (s : Carousel) : Carousel :=
  { s with timeouts := s.timeouts.filter (fun u => u.id != id) }

/-- The event loop re-arms a repeating timer for one more period when it runs it. -/
def rearmInterval (id : Nat) (s : Carousel) : Carousel :=
  { s with
    intervals := s.intervals.map
      (fun u => if u.id == id then { u with due := s.now + u.period } else u) }

/-- One run-to-completion step of the event loop; `none` when the event cannot occur
(no such button, no such timer, or the timer is not due yet). -/
def step (e : Event) (s : Carousel) : Option Carousel :=
  match e with
  | Event.prevClick => if s.hasPrevBtn then some (onPrevClick s) else none
  | Event.nextClick => if s.hasNextBtn then some (onNextClick s) else none
  | Event.indicatorClick i => some (onIndicatorClick i s)
  | Event.touchStart x => some (onTouchStart x s)
  | Event.touchEnd x => some (onTouchEnd x s)
  | Event.keydown k => some (onKeydown k s)
  | Event.mouseEnter => some (stopAutoAdvance s)
  | Event.mouseLeave => some (startAutoAdvance s)
  | Event.visibilityChange h => some (onVisibilityChange h s)
  | Event.timeoutFire id =>
    match s.timeouts.find? (fun t => t.id == id) with
    | some t =>
      if t.due ≤ s.now then some (runCallback t.callback (removeTimeout id s)) else none
    | none => none
  | Event.intervalFire id =>
    match s.intervals.find? (fun t => t.id == id) with
    | some t =>
      if t.due ≤ s.now then some (nextSlide (rearmInterval id s)) else none
    | none => none
  | Event.advance dt => some { s with now := s.now + dt }

/-- Running a list of events in order; `none` as soon as one of them cannot occur. -/
def run (es : List Event) (s : Carousel) : Option Carousel :=
  match es with
  | [] => some s
  | e :: rest =>
    match step e s with
    | some s1 => run rest s1
    | none => none

/-- What `initTrustCarousel` finds in the document and the window when it is called. -/
structure Page where
  /-- `#trustCarousel` exists -/
  hasCarousel : Bool
  /-- `#carouselTrack` exists -/
  hasTrack : Bool
  /-- number of `.carousel-slide` elements -/
  slideCount : Nat
  /-- `aria-selected` of the `.indicator` elements as written in the markup -/
  indicators : List Bool
  hasPrevBtn : Bool
  hasNextBtn : Bool
  ariaLive : Bool
  now : Nat
  timersIssued : Nat
  deriving DecidableEq, Repr

/-- The closure variables as declared on lines 410-414, before `goToSlide(0)` runs. -/
def freshState (p : Page) : Carousel :=
  { slideCount := p.slideCount
    hasPrevBtn := p.hasPrevBtn
    hasNextBtn := p.hasNextBtn
    currentIndex := 0
    autoAdvanceTimer := none
    isTransitioning := false
    touchStartX := 0
    touchEndX := 0
    trackOffset := none
    indicators := p.indicators
    ariaLive := p.ariaLive
    now := p.now
    timersIssued := p.timersIssued
    timeouts := []
    intervals := [] }

/-- Source `initTrustCarousel` (lines 398-549): `none` when it returns before creating the
controller, otherwise the state after `goToSlide(0); startAutoAdvance();`. -/
def initTrustCarousel (p : Page) : Option Carousel :=
  if !p.hasCarousel then none
  else if !p.hasTrack || p.slideCount == 0 then none
  else some (startAutoAdvance (goToSlide 0 (freshState p)))

/-- States the carousel of page `p` can be in: the initial one and everything the event
loop can make of it. -/
inductive Reachable (p : Page) : Carousel → Prop where
  | init {s : Carousel} : initTrustCarousel p = some s → Reachable p s
  | step {s s1 : Carousel} (e : Event) : Reachable p s → step e s = some s1 → Reachable p s1

/-- A page with four slides and four indicators, used for concrete checks. -/
def demoPage : Page :=
  { hasCarousel := true
    hasTrack := true
    slideCount := 4
    indicators := [true, false, false, false]
    hasPrevBtn := true
    hasNextBtn := true
    ariaLive := false
    now := 0
    timersIssued := 0 }

/-- An unlocked four-slide carousel showing slide `i`, with no timer. -/
def demoAt (i : Int) : Carousel :=
  { slideCount := 4
    hasPrevBtn := true
    hasNextBtn := true
    currentIndex := i
    autoAdvanceTimer := none
    isTransitioning := false
    touchStartX := 0
    touchEndX := 0
    trackOffset := some (-(i * 100))
    indicators := (List.range 4).map (fun (k : Nat) => decide ((k : Int) = i))
    ariaLive := true
    now := 0
    timersIssued := 0
    timeouts := []
    intervals := [] }

/-- The circular index of the specification, `((i % slideCount) + slideCount) % slideCount`,
with the truncating remainder of JavaScript. It is written from the specification, to be
compared with `normalizeIndex`. -/
def specRingIndex (slideCount : Nat) (i : Int) : Int :=
  Int.tmod (Int.tmod i (slideCount : Int) + (slideCount : Int)) (slideCount : Int)

/-- Index shown after `nextSlide` when slide `i` is shown and the lock is released. -/
def indexAfterNext (s : Carousel) (i : Int) : Int :=
  (nextSlide (resetTransition { s with currentIndex := i })).currentIndex

/-- Index shown after `prevSlide` when slide `i` is shown and the lock is released. -/
def indexAfterPrev (s : Carousel) (i : Int) : Int :=
  (prevSlide (resetTransition { s with currentIndex := i })).currentIndex

/-- The slide count is `n`, there is at least one slide, and the index is in range. -/
def IndexInv (n : Nat) (s : Carousel) : Prop :=
  s.slideCount = n ∧ 1 ≤ s.slideCount ∧ 0 ≤ s.currentIndex ∧ s.currentIndex < (s.slideCount : Int)

/-- The four-slide demo page after its cooldown has run and `previous` was clicked. -/
def demoAfterPrev : Carousel :=
  { slideCount := 4
    hasPrevBtn := true
    hasNextBtn := true
    currentIndex := 3
    autoAdvanceTimer := none
    isTransitioning := true
    touchStartX := 0
    touchEndX := 0
    trackOffset := some (-300)
    indicators := [false, false, false, true]
    ariaLive := true
    now := 500
    timersIssued := 4
    timeouts := [⟨3, 1000, Callback.resetTransition⟩, ⟨4, 1500, Callback.startAutoAdvance⟩]
    intervals := [] }

/-- Timer discipline: no pending timeout carries a handle the window has not issued yet,
and the live intervals are exactly the one named by a truthy `autoAdvanceTimer`, if any. -/
def TimerInv (s : Carousel) : Prop :=
  (∀ t ∈ s.timeouts, t.id ≤ s.timersIssued) ∧
  ((s.autoAdvanceTimer = none ∧ s.intervals = []) ∨
    (∃ id d, id ≠ 0 ∧ s.autoAdvanceTimer = some id ∧ s.intervals = [⟨id, 7000, d⟩]))

/-- The four-slide demo page right after `initTrustCarousel`. -/
def demoRunning : Carousel :=
  { slideCount := 4
    hasPrevBtn := true
    hasNextBtn := true
    currentIndex := 0
    autoAdvanceTimer := some 2
    isTransitioning := true
    touchStartX := 0
    touchEndX := 0
    trackOffset := some 0
    indicators := [true, false, false, false]
    ariaLive := true
    now := 0
    timersIssued := 2
    timeouts := [⟨1, 500, Callback.resetTransition⟩]
    intervals := [⟨2, 7000, 7000⟩] }

/-- Lock discipline: while the lock is released no cooldown reset is pending, and all
pending cooldown resets carry one and the same handle. -/
def LockInv (s : Carousel) : Prop :=
  (s.isTransitioning = false →
    ∀ t ∈ s.timeouts, t.callback ≠ Callback.resetTransition) ∧
  (∀ t ∈ s.timeouts, ∀ u ∈ s.timeouts, t.callback = Callback.resetTransition →
    u.callback = Callback.resetTransition → t.id = u.id)

/-- The carousel is locked on slide `c`, and the only cooldown reset that can be pending
is the one with handle `id0`, due at `T` or later. -/
def CoolingDown (id0 T : Nat) (c : Int) (s : Carousel) : Prop :=
  s.isTransitioning = true ∧ s.currentIndex = c ∧
  ∀ t ∈ s.timeouts, t.callback = Callback.resetTransition → t.id = id0 ∧ T ≤ t.due

/-- The demo page once the cooldown of the initial `goToSlide(0)` has run. -/
def demoIdle : Carousel :=
  { slideCount := 4
    hasPrevBtn := true
    hasNextBtn := true
    currentIndex := 0
    autoAdvanceTimer := some 2
    isTransitioning := false
    touchStartX := 0
    touchEndX := 0
    trackOffset := some 0
    indicators := [true, false, false, false]
    ariaLive := true
    now := 500
    timersIssued := 2
    timeouts := []
    intervals := [⟨2, 7000, 7000⟩] }

/-- The demo page 400 ms after `goToSlide(2)` from `demoIdle`, a click on `next` having
been dropped in between. -/
def demoCooling : Carousel :=
  { slideCount := 4
    hasPrevBtn := true
    hasNextBtn := true
    currentIndex := 2
    autoAdvanceTimer := none
    isTransitioning := true
    touchStartX := 0
    touchEndX := 0
    trackOffset := some (-200)
    indicators := [false, false, true, false]
    ariaLive := true
    now := 900
    timersIssued := 4
    timeouts := [⟨3, 1000, Callback.resetTransition⟩, ⟨4, 1800, Callback.startAutoAdvance⟩]
    intervals := [] }

/-- The closure variables after `touchstart` recorded `startX` and `touchend` recorded
`endX` (lines 497 and 502), as `handleSwipe` finds them. -/
def withGesture (startX endX : Int) (s : Carousel) : Carousel :=
  { s with touchStartX := startX, touchEndX := endX }

/-- An unlocked four-slide carousel whose markup has only two indicators. -/
def demoTwoIndicators : Carousel :=
  { slideCount := 4
    hasPrevBtn := true
    hasNextBtn := true
    currentIndex := 0
    autoAdvanceTimer := none
    isTransitioning := false
    touchStartX := 0
    touchEndX := 0
    trackOffset := some 0
    indicators := [true, false]
    ariaLive := true
    now := 0
    timersIssued := 0
    timeouts := []
    intervals := [] }

/-- The navigation each stimulus is bound to in the event table of the specification
(`previous` and left arrow: `prevSlide`; `next` and right arrow: `nextSlide`; indicator
`N`: `goToSlide(N)`); `none` for every other event. It is written from the specification,
to be compared with the listeners in `step`. -/
def specNavigation (e : Event) : Option (Carousel → Carousel) :=
  match e with
  | Event.prevClick => some prevSlide
  | Event.nextClick => some nextSlide
  | Event.indicatorClick (some n) => some (goToSlide n)
  | Event.keydown Key.arrowLeft => some prevSlide
  | Event.keydown Key.arrowRight => some nextSlide
  | _ => none

/-- The stored autoplay handle has been issued by the window and is not the handle of any
pending timeout. -/
def HandleInv (s : Carousel) : Prop :=
  ∀ id, s.autoAdvanceTimer = some id →
    id ≤ s.timersIssued ∧ ∀ t ∈ s.timeouts, t.id ≠ id

/-- The idle demo page after a click on `next`: slide 1, autoplay stopped, the cooldown
reset and the resume callback pending. -/
def demoAfterNext : Carousel :=
  { slideCount := 4
    hasPrevBtn := true
    hasNextBtn := true
    currentIndex := 1
    autoAdvanceTimer := none
    isTransitioning := true
    touchStartX := 0
    touchEndX := 0
    trackOffset := some (-100)
    indicators := [false, true, false, false]
    ariaLive := true
    now := 500
    timersIssued := 4
    timeouts := [⟨3, 1000, Callback.resetTransition⟩, ⟨4, 1500, Callback.startAutoAdvance⟩]
    intervals := [] }

/-- No autoplay tick can run before time `T`: every live interval has the autoplay
period and is due at `T` or later, and an interval armed from now on is due after `T`. -/
def Quiet (T : Nat) (s : Carousel) : Prop :=
  (∀ t ∈ s.intervals, T ≤ t.due ∧ t.period = 7000) ∧ T ≤ s.now + 7000

/-- A long touch on the running demo page: the cooldown ends, `next` is clicked at 500 ms,
its cooldown ends, the finger goes down at 1000 ms, the resume callback of the click
re-arms autoplay at 1500 ms, and the finger is still down at 8400 ms. -/
def longTouchTrace : List Event :=
  [Event.advance 500, Event.timeoutFire 1, Event.nextClick, Event.advance 500,
    Event.timeoutFire 3, Event.touchStart 100, Event.advance 500, Event.timeoutFire 4,
    Event.advance 6900]

end TrustCarousel

/-! # Other scripts of the site

The FAQ accordion of `src/script.js`, the date constraints of `src/js/main.js` and
`src/main.js.js`, and the appointment form validation of all three scripts. -/

namespace Faq

/-- One `.faq-question` with its answer (`nextElementSibling`), as far as the click
listener reads and writes them (`script.js` 59-76). -/
structure Item where
  /-- the question has class `active` -/
  active : Bool
  /-- `style.maxHeight` of the answer in pixels, `none` when cleared -/
  maxHeight : Option Nat
  /-- `scrollHeight` of the answer -/
  scrollHeight : Nat
  deriving DecidableEq, Repr

/-- The body of the inner `forEach` (lines 64-67): a question is closed and the
max-height of its answer is cleared. -/
def close (q : Item) : Item :=
  { q with active := false, maxHeight := none }

/-- The branch of lines 70-74: the clicked question is opened to its scroll height. -/
def openItem (q : Item) : Item :=
  { q with active := true, maxHeight := some q.scrollHeight }

/-- Click listener of question `k` (lines 60-75) on the list `faqQuestions`; a position
without a question has no listener. -/
def click (k : Nat) (qs : List Item) : List Item :=
  match qs[k]? with
  | none => qs
  | some question =>
    let isActive := question.active
    let closed := qs.map close
    if !isActive then closed.set k (openItem (close question)) else closed

/-- A sequence of clicks, in order. -/
def clicks (ks : List Nat) (qs : List Item) : List Item :=
  ks.foldl (fun acc k => click k acc) qs

/-- Three questions as an author could mark them up: two of them open. -/
def demoItems : List Item :=
  [⟨true, some 120, 120⟩, ⟨false, none, 80⟩, ⟨true, some 200, 200⟩]

end Faq

namespace DateConstraints

/-- The local calendar fields of a JavaScript `Date`: `getFullYear()`, `getMonth()`
(0 to 11) and `getDate()` (1 to 31). -/
structure CalendarDate where
  year : Nat
  month : Nat
  day : Nat
  deriving DecidableEq, Repr

/-- The local date and time of day (milliseconds since local midnight) that a JavaScript
`Date` shows in the time zone of the visitor. -/
structure WallTime where
  date : CalendarDate
  msOfDay : Nat
  deriving DecidableEq, Repr

/-- The time zone rules of the visitor, as the one function of them that `setMonth` uses:
`LocalTime(UTC(t))`, the wall-clock time the zone shows for a requested wall-clock time
`t`. It is `t` itself whenever `t` exists in the zone; a time that a clock change skips is
shown moved past the gap, possibly on the next day. -/
abbrev Zone := WallTime → WallTime

/-- A zone without clock changes, such as UTC: every wall-clock time exists. -/
def fixedOffset : Zone := fun t => t

/-- The rules of America/Nuuk around its clock change of 27 March 2027, when the hour
from 23:00 to 24:00 is skipped: a wall-clock time in that hour is shown one hour later,
which is on 28 March; the other times of these days exist. -/
def nuukSpring2027 : Zone := fun t =>
  if t.date = ⟨2027, 2, 27⟩ ∧ 82800000 ≤ t.msOfDay then
    ⟨⟨2027, 2, 28⟩, t.msOfDay - 82800000⟩
  else t

/-- Gregorian leap years. -/
def isLeapYear (y : Nat) : Bool :=
  (y % 4 == 0 && y % 100 != 0) || y % 400 == 0

/-- Number of days of month `m` (0 to 11) of year `y`. -/
def daysInMonth (y m : Nat) : Nat :=
  if m = 1 then (if isLeapYear y then 29 else 28)
  else if m = 3 ∨ m = 5 ∨ m = 8 ∨ m = 10 then 30
  else 31

/-- A date is one of the calendar: what `new Date()` can return. -/
def CalendarDate.Valid (d : CalendarDate) : Prop :=
  d.month < 12 ∧ 1 ≤ d.day ∧ d.day ≤ daysInMonth d.year d.month

/-- ECMAScript `MakeDay(year, m, date)` for `m ≥ 0`, read back as calendar fields: months
past December carry into the year, and a day of the month that the target month does not
have runs over into the following month. The day is at most 31 and every month has at
least 28 days, so one carry is enough. -/
def makeDay (d : CalendarDate) (m : Nat) : CalendarDate :=
  let y := d.year + m / 12
  let mo := m % 12
  if d.day ≤ daysInMonth y mo then ⟨y, mo, d.day⟩
  else if mo = 11 then ⟨y + 1, 0, d.day - daysInMonth y mo⟩
  else ⟨y, mo + 1, d.day - daysInMonth y mo⟩

/-- Built-in `Date.prototype.setMonth(m)` for `m ≥ 0`: the new local time is
`MakeDate(MakeDay(year, m, date), TimeWithinDay)`, the same time of day on the day
`makeDay` gives, stored as `UTC` of it and therefore shown as the zone resolves it. -/
def setMonth (zone : Zone) (t : WallTime) (m : Nat) : WallTime :=
  zone ⟨makeDay t.date m, t.msOfDay⟩

/-- Built-in `String(n).padStart(2, '0')`. -/
def padStart2 (n : Nat) : String :=
  String.mk (List.replicate (2 - (toString n).length) '0') ++ toString n

/-- Source `initDateConstraints`, lines 320-321 of `js/main.js` (280-281 of `main.js.js`):
`maxDate` after `maxDate.setMonth(maxDate.getMonth() + 3)`, `now` being what `new Date()`
returned. -/
def maxDate (zone : Zone) (now : WallTime) : WallTime :=
  setMonth zone now (now.date.month + 3)

/-- Source `initDateConstraints`, lines 323-327 of `js/main.js` (283-287 of
`main.js.js`): the value assigned to `dateInput.max`. -/
def maxAttribute (zone : Zone) (now : WallTime) : String :=
  let maxYear := (maxDate zone now).date.year
  let maxMonth := padStart2 ((maxDate zone now).date.month + 1)
  let maxDay := padStart2 (maxDate zone now).date.day
  toString maxYear ++ "-" ++ maxMonth ++ "-" ++ maxDay

end DateConstraints

namespace Forms

/-- A UTF-16 code unit: the element of a JavaScript string. -/
abbrev CodeUnit := Nat

/-- A JavaScript string: its sequence of UTF-16 code units, so that `.length` is the
length of the list. -/
abbrev JsString := List CodeUnit

/-- UTF-16 code units of one character (a surrogate pair above the basic plane). -/
def encodeChar (c : Char) : JsString :=
  if c.toNat < 65536 then [c.toNat]
  else [55296 + (c.toNat - 65536) / 1024, 56320 + (c.toNat - 65536) % 1024]

/-- The JavaScript string with the text of `s`. -/
def utf16 (s : String) : JsString :=
  (s.toList.map encodeChar).flatten

/-- ECMAScript white space and line terminators: what `String.prototype.trim` strips and
what `\s` matches in a regular expression. -/
def isWhiteSpace (c : CodeUnit) : Bool :=
  c == 9 || c == 10 || c == 11 || c == 12 || c == 13 || c == 32 || c == 160 ||
  c == 5760 || (8192 ≤ c && c ≤ 8202) || c == 8232 || c == 8233 || c == 8239 ||
  c == 8287 || c == 12288 || c == 65279

/-- Built-in `String.prototype.trim`. -/
def trim (s : JsString) : JsString :=
  ((s.dropWhile isWhiteSpace).reverse.dropWhile isWhiteSpace).reverse

/-- Regular expressions over code units, as far as the patterns of the site need them:
character classes, sequence, alternative and repetition. -/
inductive Regex where
  | empty : Regex
  | eps : Regex
  | cls (p : CodeUnit → Bool) : Regex
  | alt (a b : Regex) : Regex
  | seq (a b : Regex) : Regex
  | star (a : Regex) : Regex

namespace Regex

/-- The pattern `a+`. -/
def plus (a : Regex) : Regex := seq a (star a)

/-- The pattern `a{n,}`. -/
def atLeast (n : Nat) (a : Regex) : Regex :=
  match n with
  | 0 => star a
  | n + 1 => seq a (atLeast n a)

/-- The pattern of one literal character. -/
def chr (c : CodeUnit) : Regex := cls (fun x => x == c)

/-- Whether the pattern matches the empty string. -/
def nullable (r : Regex) : Bool :=
  match r with
  | empty => false
  | eps => true
  | cls _ => false
  | alt a b => nullable a || nullable b
  | seq a b => nullable a && nullable b
  | star _ => true

/-- The pattern of what may follow the code unit `c` (Brzozowski derivative). -/
def deriv (c : CodeUnit) (r : Regex) : Regex :=
  match r with
  | empty => empty
  | eps => empty
  | cls p => if p c then eps else empty
  | alt a b => alt (deriv c a) (deriv c b)
  | seq a b => if nullable a then alt (seq (deriv c a) b) (deriv c b) else seq (deriv c a) b
  | star a => seq (deriv c a) (star a)

/-- Built-in `RegExp.prototype.test` for a pattern anchored by `^` and `$`, without
flags: whether the whole string matches. -/
def test (r : Regex) (s : JsString) : Bool :=
  match s with
  | [] => nullable r
  | c :: rest => test (deriv c r) rest

/-- The language of a pattern: the strings it matches. A repetition matches the
concatenations of non-empty matches of its body. -/
def Lang (r : Regex) (s : JsString) : Prop :=
  match r with
  | empty => False
  | eps => s = []
  | cls p => ∃ c, s = [c] ∧ p c = true
  | alt a b => Lang a s ∨ Lang b s
  | seq a b => ∃ x y, s = x ++ y ∧ Lang a x ∧ Lang b y
  | star a => ∃ parts : List JsString, s = parts.flatten ∧ ∀ x ∈ parts, x ≠ [] ∧ Lang a x

end Regex

/-- The class `[^\s@]`. -/
def notSpaceNorAt (c : CodeUnit) : Bool := !(isWhiteSpace c || c == 64)

/-- The class `[\d\s\-\+\(\)]`. -/
def phoneChar (c : CodeUnit) : Bool :=
  (48 ≤ c && c ≤ 57) || isWhiteSpace c || c == 45 || c == 43 || c == 40 || c == 41

/-- The pattern `^[^\s@]+@[^\s@]+\.[^\s@]+$` (`js/main.js` 103, `main.js.js` 81,
`script.js` 93). -/
def emailRegex : Regex :=
  Regex.seq (Regex.plus (Regex.cls notSpaceNorAt))
    (Regex.seq (Regex.chr 64)
      (Regex.seq (Regex.plus (Regex.cls notSpaceNorAt))
        (Regex.seq (Regex.chr 46) (Regex.plus (Regex.cls notSpaceNorAt)))))

/-- The pattern `^[\d\s\-\+\(\)]{10,}$` (`js/main.js` 107, `main.js.js` 85,
`script.js` 88). -/
def phoneRegex : Regex :=
  Regex.atLeast 10 (Regex.cls phoneChar)

/-! The validators below have the same text in `js/main.js` (lines 95-119) and in
`main.js.js` (lines 73-97); each returns the error message, the empty string meaning that
the value is accepted. -/

/-- Source `validators.firstName`. -/
def validators.firstName (value : JsString) : String :=
  if (trim value).length ≥ 2 then "" else "Please enter a valid first name"

/-- Source `validators.lastName`. -/
def validators.lastName (value : JsString) : String :=
  if (trim value).length ≥ 2 then "" else "Please enter a valid last name"

/-- Source `validators.email`. -/
def validators.email (value : JsString) : String :=
  if Regex.test emailRegex value then "" else "Please enter a valid email address"

/-- Source `validators.phone`. -/
def validators.phone (value : JsString) : String :=
  if Regex.test phoneRegex value then "" else "Please enter a valid phone number"

/-- Source `validators.serviceType`. -/
def validators.serviceType (value : JsString) : String :=
  if value ≠ [] then "" else "Please select a service type"

/-- Source `validators.patientType`. -/
def validators.patientType (value : JsString) : String :=
  if value ≠ [] then "" else "Please select your patient status"

/-- Source `validators.consent`. -/
def validators.consent (checked : Bool) : String :=
  if checked then "" else "You must consent to being contacted"

/-- Source `validateName` of `script.js` (lines 83-85). -/
def validateName (name : JsString) : Bool :=
  decide ((trim name).length ≥ 3)

/-- Source `validatePhone` of `script.js` (lines 87-90). -/
def validatePhone (phone : JsString) : Bool :=
  Regex.test phoneRegex phone

/-- Source `validateEmail` of `script.js` (lines 92-95). -/
def validateEmail (email : JsString) : Bool :=
  Regex.test emailRegex email

/-- What the page shows for one field: the text of its error element, whether that
element has class `show`, and whether the field has class `error`. -/
structure FieldView where
  errorText : String
  errorShown : Bool
  fieldError : Bool
  deriving DecidableEq, Repr

/-- Source `showError`, with the field and its error element present; the shake animation
that `js/main.js` adds for 300 ms is not modelled. -/
def showError (message : String) (_view : FieldView) : FieldView :=
  { errorText := message, errorShown := true, fieldError := true }

/-- Source `clearError`, with the field and its error element present. -/
def clearError (_view : FieldView) : FieldView :=
  { errorText := "", errorShown := false, fieldError := false }

/-- Source `validateField(fieldName, value)` for a text or select field, `validator`
being `validators[fieldName]`. -/
def validateField (validator : JsString → String) (value : JsString) (view : FieldView) :
    Bool × FieldView :=
  let error := validator (trim value)
  if error ≠ "" then (false, showError error view) else (true, clearError view)

/-- Source `validateField(fieldName, value, true)` for the checkbox. -/
def validateCheckbox (validator : Bool → String) (checked : Bool) (view : FieldView) :
    Bool × FieldView :=
  let error := validator checked
  if error ≠ "" then (false, showError error view) else (true, clearError view)

/-- The seven fields the submit listener validates. -/
inductive FieldName where
  | firstName
  | lastName
  | email
  | phone
  | serviceType
  | patientType
  | consent
  deriving DecidableEq, Repr

/-- The values the submit listener reads from the form (`formData`). -/
structure FormValues where
  firstName : JsString
  lastName : JsString
  email : JsString
  phone : JsString
  serviceType : JsString
  patientType : JsString
  consent : Bool
  deriving DecidableEq, Repr

/-- The appointment form: its current values, what is shown for each field, and whether
the success message has class `show`. -/
structure Form where
  values : FormValues
  view : FieldName → FieldView
  successShown : Bool

/-- Replace the view of one field. -/
def Form.setView (form : Form) (f : FieldName) (v : FieldView) : Form :=
  { form with view := fun g => if g = f then v else form.view g }

/-- Source submit listener (`js/main.js` 191-245, `main.js.js` 163-210) up to the timers
that hide the success message again: the form afterwards, and whether the success branch
was taken. `defaults` are the values `form.reset()` restores. -/
def submit (defaults : FormValues) (form : Form) : Form × Bool :=
  let formData := form.values
  let isValid := true
  let r1 := validateField validators.firstName formData.firstName (form.view FieldName.firstName)
  let form := form.setView FieldName.firstName r1.2
  let isValid := r1.1 && isValid
  let r2 := validateField validators.lastName formData.lastName (form.view FieldName.lastName)
  let form := form.setView FieldName.lastName r2.2
  let isValid := r2.1 && isValid
  let r3 := validateField validators.email formData.email (form.view FieldName.email)
  let form := form.setView FieldName.email r3.2
  let isValid := r3.1 && isValid
  let r4 := validateField validators.phone formData.phone (form.view FieldName.phone)
  let form := form.setView FieldName.phone r4.2
  let isValid := r4.1 && isValid
  let r5 := validateField validators.serviceType formData.serviceType
    (form.view FieldName.serviceType)
  let form := form.setView FieldName.serviceType r5.2
  let isValid := r5.1 && isValid
  let r6 := validateField validators.patientType formData.patientType
    (form.view FieldName.patientType)
  let form := form.setView FieldName.patientType r6.2
  let isValid := r6.1 && isValid
  let r7 := validateCheckbox validators.consent formData.consent (form.view FieldName.consent)
  let form := form.setView FieldName.consent r7.2
  let isValid := r7.1 && isValid
  if isValid then ({ form with values := defaults, successShown := true }, true)
  else (form, false)

/-- The message `validators[f]` returns for the value of field `f` as it stands in the
form. -/
def validatorMessage (f : FieldName) (values : FormValues) : String :=
  match f with
  | FieldName.firstName => validators.firstName values.firstName
  | FieldName.lastName => validators.lastName values.lastName
  | FieldName.email => validators.email values.email
  | FieldName.phone => validators.phone values.phone
  | FieldName.serviceType => validators.serviceType values.serviceType
  | FieldName.patientType => validators.patientType values.patientType
  | FieldName.consent => validators.consent values.consent

/-- The form values with surrounding white space stripped from every text value. -/
def trimmedValues (values : FormValues) : FormValues :=
  { firstName := trim values.firstName
    lastName := trim values.lastName
    email := trim values.email
    phone := trim values.phone
    serviceType := trim values.serviceType
    patientType := trim values.patientType
    consent := values.consent }

/-- The part of a string before its first `@`. -/
def beforeAt (s : JsString) : JsString :=
  s.takeWhile (fun c => c != 64)

/-- The part of a string after its first `@`. -/
def afterAt (s : JsString) : JsString :=
  (s.dropWhile (fun c => c != 64)).tail

/-- The shape of an accepted e-mail address, in the words of the claim about the email
validator: no white space, exactly one `@` with a non-empty part before it, and in the
part after the `@` a `.` that is neither its first nor its last character. It is written
from the claim, to be compared with `emailRegex`. -/
def EmailShape (s : JsString) : Prop :=
  (∀ c ∈ s, isWhiteSpace c = false) ∧
  s.count 64 = 1 ∧
  beforeAt s ≠ [] ∧
  ∃ k, 0 < k ∧ k + 1 < (afterAt s).length ∧ (afterAt s)[k]? = some 46

/-- A form without errors shown, filled in correctly except that the phone number is nine
digits followed by a space. -/
def demoForm : Form :=
  { values :=
      { firstName := utf16 "Ana"
        lastName := utf16 "Lopez"
        email := utf16 "ana@clinic.org"
        phone := utf16 "123456789 "
        serviceType := utf16 "checkup"
        patientType := utf16 "new"
        consent := true }
    view := fun _ => ⟨"", false, false⟩
    successShown := false }

/-- The empty form that `reset()` restores. -/
def emptyValues : FormValues :=
  { firstName := [], lastName := [], email := [], phone := [], serviceType := [],
    patientType := [], consent := false }

end Forms

namespace TrustCarousel

/-! ## Basic facts about `goToSlide` -/

theorem goToSlide_of_locked (index : Int) (s : Carousel) (h : s.isTransitioning = true) :
    goToSlide index s = s := by
  simp [goToSlide, h]

theorem goToSlide_currentIndex_of_unlocked (index : Int) (s : Carousel)
    (h : s.isTransitioning = false) :
    (goToSlide index s).currentIndex = normalizeIndex s.slideCount index := by
  simp [goToSlide, h, setTimeout]

theorem goToSlide_isTransitioning_of_unlocked (index : Int) (s : Carousel)
    (h : s.isTransitioning = false) :
    (goToSlide index s).isTransitioning = true := by
  simp [goToSlide, h, setTimeout]

theorem goToSlide_slideCount (index : Int) (s : Carousel) :
    (goToSlide index s).slideCount = s.slideCount := by
  unfold goToSlide
  split <;> simp [setTimeout]

theorem normalizeIndex_nonneg (n : Nat) (index : Int) (hn : 1 ≤ n) :
    0 ≤ normalizeIndex n index := by
  unfold normalizeIndex
  split_ifs <;> omega

theorem normalizeIndex_lt (n : Nat) (index : Int) (hn : 1 ≤ n) :
    normalizeIndex n index < (n : Int) := by
  unfold normalizeIndex
  split_ifs <;> omega

/-! ## Frame facts of the autoplay operations and of `setTimeout` -/

theorem stopAutoAdvance_frame (s : Carousel) :
    (stopAutoAdvance s).slideCount = s.slideCount ∧
    (stopAutoAdvance s).currentIndex = s.currentIndex ∧
    (stopAutoAdvance s).isTransitioning = s.isTransitioning ∧
    (stopAutoAdvance s).now = s.now ∧
    (stopAutoAdvance s).timersIssued = s.timersIssued := by
  unfold stopAutoAdvance
  split
  · split <;> simp [clearInterval]
  · simp

theorem stopAutoAdvance_timeouts_subset (s : Carousel) (t : Timeout)
    (h : t ∈ (stopAutoAdvance s).timeouts) : t ∈ s.timeouts := by
  unfold stopAutoAdvance at h
  split at h
  · split at h
    · simp only [clearInterval] at h
      exact List.mem_of_mem_filter h
    · exact h
  · exact h

theorem startAutoAdvance_frame (s : Carousel) :
    (startAutoAdvance s).slideCount = s.slideCount ∧
    (startAutoAdvance s).currentIndex = s.currentIndex ∧
    (startAutoAdvance s).isTransitioning = s.isTransitioning ∧
    (startAutoAdvance s).now = s.now ∧
    (startAutoAdvance s).timersIssued = s.timersIssued + 1 ∧
    (startAutoAdvance s).timeouts = (stopAutoAdvance s).timeouts := by
  obtain ⟨h1, h2, h3, h4, h5⟩ := stopAutoAdvance_frame s
  simp [startAutoAdvance, setInterval, h1, h2, h3, h4, h5]

theorem startAutoAdvance_timeouts_subset (s : Carousel) (t : Timeout)
    (h : t ∈ (startAutoAdvance s).timeouts) : t ∈ s.timeouts := by
  rw [(startAutoAdvance_frame s).2.2.2.2.2] at h
  exact stopAutoAdvance_timeouts_subset s t h

/-! ## Invariants of the event loop -/

/-- A property that every operation of the controller preserves is preserved by a step
of the event loop, the running of a one-shot callback being left to the caller. -/
theorem step_preserves_but_fire (I : Carousel → Prop) (e : Event) (s s1 : Carousel)
    (hs : I s) (hstep : step e s = some s1)
    (hgo : ∀ k s, I s → I (goToSlide k s))
    (hstop : ∀ s, I s → I (stopAutoAdvance s))
    (hstart : ∀ s, I s → I (startAutoAdvance s))
    (hresume : ∀ s, I s → I (setTimeout Callback.startAutoAdvance 1000 s))
    (htouchStart : ∀ x s, I s → I { s with touchStartX := x })
    (htouchEnd : ∀ x s, I s → I { s with touchEndX := x })
    (hadvance : ∀ dt s, I s → I { s with now := s.now + dt })
    (hrearm : ∀ id s, I s → I (rearmInterval id s))
    (hfire : ∀ id, e = Event.timeoutFire id → I s1) : I s1 := by
  have hnext : ∀ s, I s → I (nextSlide s) := fun s h => hgo _ s h
  have hprev : ∀ s, I s → I (prevSlide s) := fun s h => hgo _ s h
  cases e with
  | prevClick =>
    simp only [step] at hstep
    split at hstep
    · cases hstep; exact hresume _ (hstop _ (hprev _ hs))
    · cases hstep
  | nextClick =>
    simp only [step] at hstep
    split at hstep
    · cases hstep; exact hresume _ (hstop _ (hnext _ hs))
    · cases hstep
  | indicatorClick i =>
    simp only [step] at hstep
    cases hstep
    cases i with
    | none => exact hs
    | some k => exact hresume _ (hstop _ (hgo k _ hs))
  | touchStart x =>
    simp only [step] at hstep
    cases hstep
    exact hstop _ (htouchStart x _ hs)
  | touchEnd x =>
    simp only [step] at hstep
    cases hstep
    refine hresume _ ?_
    unfold handleSwipe
    simp only
    split
    · split
      · exact hnext _ (htouchEnd x _ hs)
      · exact hprev _ (htouchEnd x _ hs)
    · exact htouchEnd x _ hs
  | keydown k =>
    simp only [step] at hstep
    cases hstep
    cases k with
    | arrowLeft => exact hresume _ (hstop _ (hprev _ hs))
    | arrowRight => exact hresume _ (hstop _ (hnext _ hs))
    | other => exact hs
  | mouseEnter =>
    simp only [step] at hstep
    cases hstep; exact hstop _ hs
  | mouseLeave =>
    simp only [step] at hstep
    cases hstep; exact hstart _ hs
  | visibilityChange h =>
    simp only [step] at hstep
    cases hstep
    cases h with
    | true => exact hstop _ hs
    | false => exact hstart _ hs
  | timeoutFire id => exact hfire id rfl
  | intervalFire id =>
    simp only [step] at hstep
    split at hstep
    · split at hstep
      · cases hstep; exact hnext _ (hrearm id _ hs)
      · cases hstep
    · cases hstep
  | advance dt =>
    simp only [step] at hstep
    cases hstep; exact hadvance dt _ hs

/-- An invariant that every operation of the controller preserves is preserved by every
step of the event loop. -/
theorem step_preserves (I : Carousel → Prop)
    (hgo : ∀ k s, I s → I (goToSlide k s))
    (hstop : ∀ s, I s → I (stopAutoAdvance s))
    (hstart : ∀ s, I s → I (startAutoAdvance s))
    (hresume : ∀ s, I s → I (setTimeout Callback.startAutoAdvance 1000 s))
    (htouchStart : ∀ x s, I s → I { s with touchStartX := x })
    (htouchEnd : ∀ x s, I s → I { s with touchEndX := x })
    (hadvance : ∀ dt s, I s → I { s with now := s.now + dt })
    (hfire : ∀ id s s1, I s → step (Event.timeoutFire id) s = some s1 → I s1)
    (hrearm : ∀ id s, I s → I (rearmInterval id s))
    (e : Event) (s s1 : Carousel) (hs : I s) (hstep : step e s = some s1) : I s1 := by
  refine step_preserves_but_fire I e s s1 hs hstep hgo hstop hstart hresume htouchStart
    htouchEnd hadvance hrearm ?_
  intro id he
  subst he
  exact hfire id s s1 hs hstep

/-- What it takes for `timeoutFire id` to occur: a pending timeout with that handle
which is due; its callback is run on the state without it. -/
theorem step_timeoutFire_eq_some (id : Nat) (s s1 : Carousel)
    (h : step (Event.timeoutFire id) s = some s1) :
    ∃ t ∈ s.timeouts, t.id = id ∧ t.due ≤ s.now ∧
      s1 = runCallback t.callback (removeTimeout id s) := by
  simp only [step] at h
  split at h
  · rename_i t hfind
    split at h
    · rename_i hdue
      cases h
      refine ⟨t, List.mem_of_find?_eq_some hfind, ?_, hdue, rfl⟩
      have := List.find?_some hfind
      simpa using this
    · cases h
  · cases h

/-- An invariant that holds after initialisation and is preserved by every step holds in
every reachable state. -/
theorem reachable_induction (p : Page) (I : Carousel → Prop)
    (hinit : ∀ s, initTrustCarousel p = some s → I s)
    (hstep : ∀ e s s1, I s → step e s = some s1 → I s1)
    (s : Carousel) (h : Reachable p s) : I s := by
  induction h with
  | init h0 => exact hinit _ h0
  | step e _ hs ih => exact hstep e _ _ ih hs

/-- What `initTrustCarousel` returns when it creates a controller. -/
theorem initTrustCarousel_eq_some (p : Page) (s : Carousel)
    (h : initTrustCarousel p = some s) :
    p.slideCount ≠ 0 ∧ s = startAutoAdvance (goToSlide 0 (freshState p)) := by
  unfold initTrustCarousel at h
  split at h
  · cases h
  · split at h
    · cases h
    · rename_i h1 h2
      cases h
      refine ⟨?_, rfl⟩
      intro h0
      apply h2
      simp [h0]

/-! ## Claims about `goToSlide` -/

theorem goToSlide_index_cases (s : Carousel) (targetIndex : Int)
    (hunlocked : s.isTransitioning = false) :
    ((s.slideCount : Int) ≤ targetIndex → (goToSlide targetIndex s).currentIndex = 0) ∧
    (targetIndex < 0 → (goToSlide targetIndex s).currentIndex = (s.slideCount : Int) - 1) ∧
    (0 ≤ targetIndex → targetIndex < (s.slideCount : Int) →
      (goToSlide targetIndex s).currentIndex = targetIndex) := by
  rw [goToSlide_currentIndex_of_unlocked targetIndex s hunlocked]
  unfold normalizeIndex
  refine ⟨fun h => ?_, fun h => ?_, fun h1 h2 => ?_⟩
  · simp [h]
  · have h3 : ¬ (targetIndex ≥ (s.slideCount : Int)) := by omega
    simp [h3, h]
  · have h3 : ¬ (targetIndex ≥ (s.slideCount : Int)) := by omega
    have h4 : ¬ (targetIndex < 0) := by omega
    simp [h3, h4]

/-- C1: called while `isTransitioning` is false, `goToSlide(targetIndex)` stores `0` when
`targetIndex ≥ slideCount`, `slideCount - 1` when `targetIndex < 0`, and `targetIndex`
itself otherwise. -/
theorem goToSlide_normalizes (s : Carousel) (targetIndex : Int)
    (hunlocked : s.isTransitioning = false) :
    ((s.slideCount : Int) ≤ targetIndex → (goToSlide targetIndex s).currentIndex = 0) ∧
    (targetIndex < 0 → (goToSlide targetIndex s).currentIndex = (s.slideCount : Int) - 1) ∧
    (0 ≤ targetIndex → targetIndex < (s.slideCount : Int) →
      (goToSlide targetIndex s).currentIndex = targetIndex) := by
  have hcur : (goToSlide targetIndex s).currentIndex = normalizeIndex s.slideCount targetIndex := by
    simp [goToSlide, hunlocked, setTimeout]
  rw [hcur]
  unfold normalizeIndex
  refine ⟨fun h => ?_, fun h => ?_, fun h1 h2 => ?_⟩
  · rw [if_pos h]
  · rw [if_neg (by omega), if_pos h]
  · rw [if_neg (by omega), if_neg (by omega)]

/-- Witness of C1 on a four-slide carousel showing slide 1: targets 4, -1 and 2. -/
theorem goToSlide_normalizes_witness :
    (demoAt 1).isTransitioning = false ∧
    (goToSlide 4 (demoAt 1)).currentIndex = 0 ∧
    (goToSlide (-1) (demoAt 1)).currentIndex = 3 ∧
    (goToSlide 2 (demoAt 1)).currentIndex = 2 :=
  ⟨rfl,
    (goToSlide_normalizes (demoAt 1) 4 rfl).1 (by decide),
    (goToSlide_normalizes (demoAt 1) (-1) rfl).2.1 (by decide),
    (goToSlide_normalizes (demoAt 1) 2 rfl).2.2 (by decide) (by decide)⟩

/-- C2, counterexample: with four slides and the lock released, `goToSlide(5)` stores `0`
where the circular formula gives `1`, and `goToSlide(-2)` stores `3` where it gives `2`. -/
theorem goToSlide_not_modular :
    (demoAt 0).isTransitioning = false ∧
    (goToSlide 5 (demoAt 0)).currentIndex = 0 ∧ specRingIndex 4 5 = 1 ∧
    (goToSlide (-2) (demoAt 0)).currentIndex = 3 ∧ specRingIndex 4 (-2) = 2 := by
  decide

/-- C2, amended: with at least one slide and the lock released, `goToSlide(i)` stores the
circular index `((i % slideCount) + slideCount) % slideCount` for every target at most one
step outside the range (`-1 ≤ i ≤ slideCount`); a target further out is not reduced modulo
`slideCount`: it stores `0` when `i > slideCount` and `slideCount - 1` when `i < -1`. -/
theorem goToSlide_modular_one_step (s : Carousel) (i : Int)
    (hcount : 1 ≤ s.slideCount) (hunlocked : s.isTransitioning = false) :
    (-1 ≤ i → i ≤ (s.slideCount : Int) →
      (goToSlide i s).currentIndex = specRingIndex s.slideCount i) ∧
    ((s.slideCount : Int) < i → (goToSlide i s).currentIndex = 0) ∧
    (i < -1 → (goToSlide i s).currentIndex = (s.slideCount : Int) - 1) := by
  obtain ⟨hge, hneg, hmid⟩ := goToSlide_index_cases s i hunlocked
  have hn : (1 : Int) ≤ (s.slideCount : Int) := by exact_mod_cast hcount
  refine ⟨fun h1 h2 => ?_, fun h => hge (by omega), fun h => hneg (by omega)⟩
  unfold specRingIndex
  rcases lt_trichotomy i 0 with hlt | heq | hgt
  · have hi : i = -1 := by omega
    subst hi
    rw [hneg (by omega)]
    rcases Nat.eq_or_lt_of_le hcount with h1n | h1n
    · rw [← h1n]; decide
    · have hn2 : (2 : Int) ≤ (s.slideCount : Int) := by exact_mod_cast h1n
      have e1 : Int.tmod (-1) (s.slideCount : Int) = -(((1 % s.slideCount : Nat)) : Int) := rfl
      rw [e1, Nat.mod_eq_of_lt h1n]
      have e2 : (-((1 : Nat) : Int)) + (s.slideCount : Int) = (s.slideCount : Int) - 1 := by
        push_cast; ring
      rw [e2, Int.tmod_eq_of_lt (by omega) (by omega)]
  · subst heq
    rw [hmid (le_refl 0) (by omega)]
    simp
  · rcases eq_or_lt_of_le h2 with heq | hlt
    · subst heq
      rw [hge (le_refl _)]
      simp
    · rw [hmid (by omega) hlt, Int.tmod_eq_of_lt (by omega) hlt,
        Int.tmod_eq_emod (by omega) (by omega), Int.add_emod_self,
        Int.emod_eq_of_lt (by omega) hlt]

/-- Witness of the amended C2: four slides, target 4 (one step past the end). -/
theorem goToSlide_modular_one_step_witness :
    1 ≤ (demoAt 2).slideCount ∧ (demoAt 2).isTransitioning = false ∧
    (goToSlide 4 (demoAt 2)).currentIndex = specRingIndex (demoAt 2).slideCount 4 :=
  ⟨by decide, rfl,
    (goToSlide_modular_one_step (demoAt 2) 4 (by decide) rfl).1 (by decide) (by decide)⟩

theorem IndexInv_of_frame (n : Nat) (s s1 : Carousel) (h : IndexInv n s)
    (h1 : s1.slideCount = s.slideCount) (h2 : s1.currentIndex = s.currentIndex) :
    IndexInv n s1 := by
  unfold IndexInv at *
  rw [h1, h2]
  exact h

theorem IndexInv_goToSlide (n : Nat) (k : Int) (s : Carousel) (h : IndexInv n s) :
    IndexInv n (goToSlide k s) := by
  cases hl : s.isTransitioning with
  | true => rw [goToSlide_of_locked k s hl]; exact h
  | false =>
    obtain ⟨h1, h2, _, _⟩ := h
    refine ⟨?_, ?_, ?_, ?_⟩
    · rw [goToSlide_slideCount]; exact h1
    · rw [goToSlide_slideCount]; exact h2
    · rw [goToSlide_currentIndex_of_unlocked k s hl]
      exact normalizeIndex_nonneg _ _ h2
    · rw [goToSlide_currentIndex_of_unlocked k s hl, goToSlide_slideCount]
      exact normalizeIndex_lt _ _ h2

theorem IndexInv_step (n : Nat) (e : Event) (s s1 : Carousel) (h : IndexInv n s)
    (hstep : step e s = some s1) : IndexInv n s1 := by
  refine step_preserves (IndexInv n) (IndexInv_goToSlide n) ?_ ?_ ?_ ?_ ?_ ?_ ?_ ?_ e s s1 h hstep
  · intro s hs
    exact IndexInv_of_frame n s _ hs (stopAutoAdvance_frame s).1 (stopAutoAdvance_frame s).2.1
  · intro s hs
    exact IndexInv_of_frame n s _ hs (startAutoAdvance_frame s).1 (startAutoAdvance_frame s).2.1
  · intro s hs; exact IndexInv_of_frame n s _ hs rfl rfl
  · intro x s hs; exact IndexInv_of_frame n s _ hs rfl rfl
  · intro x s hs; exact IndexInv_of_frame n s _ hs rfl rfl
  · intro dt s hs; exact IndexInv_of_frame n s _ hs rfl rfl
  · intro id s s1 hs hfire
    simp only [step] at hfire
    split at hfire
    · split at hfire
      · cases hfire
        rename_i t _ _
        cases t.callback with
        | resetTransition => exact IndexInv_of_frame n s _ hs rfl rfl
        | startAutoAdvance =>
          exact IndexInv_of_frame n s _ hs (startAutoAdvance_frame _).1
            (startAutoAdvance_frame _).2.1
      · cases hfire
    · cases hfire
  · intro id s hs; exact IndexInv_of_frame n s _ hs rfl rfl

/-- C3: in every state reachable from the initialisation of page `p` by any sequence of
events (clicks, keys, touches, hover, visibility changes, cooldown resets, resume
callbacks, autoplay ticks, time passing), the slide count is still the one found at
initialisation, it is at least 1, and `0 ≤ currentIndex < slideCount`. -/
theorem reachable_index_in_range (p : Page) (s : Carousel) (h : Reachable p s) :
    s.slideCount = p.slideCount ∧ 1 ≤ s.slideCount ∧
    0 ≤ s.currentIndex ∧ s.currentIndex < (s.slideCount : Int) := by
  refine reachable_induction p (IndexInv p.slideCount) ?_
    (fun e s s1 => IndexInv_step p.slideCount e s s1) s h
  intro s0 h0
  obtain ⟨hne, rfl⟩ := initTrustCarousel_eq_some p s0 h0
  have hfresh : IndexInv p.slideCount (freshState p) :=
    ⟨rfl, Nat.one_le_iff_ne_zero.mpr hne, le_refl _, by
      have : 1 ≤ p.slideCount := Nat.one_le_iff_ne_zero.mpr hne
      show (0 : Int) < (p.slideCount : Int)
      exact_mod_cast this⟩
  exact IndexInv_of_frame _ _ _ (IndexInv_goToSlide _ 0 _ hfresh)
    (startAutoAdvance_frame _).1 (startAutoAdvance_frame _).2.1

/-- The demo state is reached by: initialise, wait 500 ms, run the cooldown reset, click
`previous`. -/
theorem demoAfterPrev_reachable : Reachable demoPage demoAfterPrev :=
  Reachable.step Event.prevClick
    (Reachable.step (Event.timeoutFire 1)
      (Reachable.step (Event.advance 500) (Reachable.init rfl) rfl) rfl) (by decide)

/-- Witness of C3 on the demo page after wrapping backwards from slide 0 to slide 3. -/
theorem reachable_index_in_range_witness :
    Reachable demoPage demoAfterPrev ∧
    demoAfterPrev.slideCount = demoPage.slideCount ∧ 1 ≤ demoAfterPrev.slideCount ∧
    0 ≤ demoAfterPrev.currentIndex ∧
    demoAfterPrev.currentIndex < (demoAfterPrev.slideCount : Int) :=
  ⟨demoAfterPrev_reachable, reachable_index_in_range demoPage demoAfterPrev demoAfterPrev_reachable⟩

/-! ## Autoplay timer -/

theorem goToSlide_timers_of_unlocked (k : Int) (s : Carousel) (h : s.isTransitioning = false) :
    (goToSlide k s).autoAdvanceTimer = s.autoAdvanceTimer ∧
    (goToSlide k s).intervals = s.intervals ∧
    (goToSlide k s).timersIssued = s.timersIssued + 1 ∧
    (goToSlide k s).now = s.now ∧
    (goToSlide k s).timeouts =
      s.timeouts ++ [⟨s.timersIssued + 1, s.now + 500, Callback.resetTransition⟩] := by
  simp [goToSlide, h, setTimeout]

theorem stopAutoAdvance_of_TimerInv (s : Carousel) (h : TimerInv s) :
    (stopAutoAdvance s).autoAdvanceTimer = none ∧ (stopAutoAdvance s).intervals = [] := by
  obtain ⟨_, h2⟩ := h
  rcases h2 with ⟨hnone, hint⟩ | ⟨id, d, hid, hsome, hint⟩
  · simp [stopAutoAdvance, hnone, hint]
  · simp [stopAutoAdvance, hsome, hid, clearInterval, hint]

theorem TimerInv_goToSlide (k : Int) (s : Carousel) (h : TimerInv s) :
    TimerInv (goToSlide k s) := by
  cases hl : s.isTransitioning with
  | true => rw [goToSlide_of_locked k s hl]; exact h
  | false =>
    obtain ⟨h1, h2, h3, _, h5⟩ := goToSlide_timers_of_unlocked k s hl
    unfold TimerInv
    rw [h1, h2, h3, h5]
    refine ⟨?_, h.2⟩
    intro t ht
    rcases List.mem_append.mp ht with ht | ht
    · exact Nat.le_succ_of_le (h.1 t ht)
    · rw [List.mem_singleton.mp ht]

theorem TimerInv_stopAutoAdvance (s : Carousel) (h : TimerInv s) :
    TimerInv (stopAutoAdvance s) := by
  obtain ⟨h1, h2⟩ := stopAutoAdvance_of_TimerInv s h
  refine ⟨?_, Or.inl ⟨h1, h2⟩⟩
  intro t ht
  rw [(stopAutoAdvance_frame s).2.2.2.2]
  exact h.1 t (stopAutoAdvance_timeouts_subset s t ht)

theorem startAutoAdvance_of_TimerInv (s : Carousel) (h : TimerInv s) :
    (startAutoAdvance s).autoAdvanceTimer = some (s.timersIssued + 1) ∧
    (startAutoAdvance s).intervals = [⟨s.timersIssued + 1, 7000, s.now + 7000⟩] := by
  obtain ⟨_, h2⟩ := stopAutoAdvance_of_TimerInv s h
  obtain ⟨_, _, _, h4, h5⟩ := stopAutoAdvance_frame s
  simp [startAutoAdvance, setInterval, h2, h4, h5]

theorem TimerInv_startAutoAdvance (s : Carousel) (h : TimerInv s) :
    TimerInv (startAutoAdvance s) := by
  obtain ⟨h1, h2⟩ := startAutoAdvance_of_TimerInv s h
  refine ⟨?_, Or.inr ⟨s.timersIssued + 1, s.now + 7000, Nat.succ_ne_zero _, h1, h2⟩⟩
  intro t ht
  rw [(startAutoAdvance_frame s).2.2.2.2.1]
  exact Nat.le_succ_of_le (h.1 t (startAutoAdvance_timeouts_subset s t ht))

theorem TimerInv_rearmInterval (id : Nat) (s : Carousel) (h : TimerInv s) :
    TimerInv (rearmInterval id s) := by
  refine ⟨h.1, ?_⟩
  rcases h.2 with ⟨hnone, hint⟩ | ⟨k, d, hk, hsome, hint⟩
  · exact Or.inl ⟨hnone, by simp [rearmInterval, hint]⟩
  · by_cases hid : k = id
    · exact Or.inr ⟨k, s.now + 7000, hk, hsome, by simp [rearmInterval, hint, hid]⟩
    · exact Or.inr ⟨k, d, hk, hsome, by simp [rearmInterval, hint, hid]⟩

theorem TimerInv_step (e : Event) (s s1 : Carousel) (h : TimerInv s)
    (hstep : step e s = some s1) : TimerInv s1 := by
  refine step_preserves TimerInv TimerInv_goToSlide TimerInv_stopAutoAdvance
    TimerInv_startAutoAdvance ?_ ?_ ?_ ?_ ?_ TimerInv_rearmInterval e s s1 h hstep
  · intro s hs
    refine ⟨?_, hs.2⟩
    intro t ht
    simp only [setTimeout] at ht
    rcases List.mem_append.mp ht with ht | ht
    · exact Nat.le_succ_of_le (hs.1 t ht)
    · rw [List.mem_singleton.mp ht]
      exact le_refl _
  · intro x s hs; exact hs
  · intro x s hs; exact hs
  · intro dt s hs; exact hs
  · intro id s s1 hs hfire
    simp only [step] at hfire
    split at hfire
    · split at hfire
      · cases hfire
        rename_i t _ _
        have hrem : TimerInv (removeTimeout id s) :=
          ⟨fun u hu => hs.1 u (List.mem_of_mem_filter hu), hs.2⟩
        cases t.callback with
        | resetTransition => exact hrem
        | startAutoAdvance => exact TimerInv_startAutoAdvance _ hrem
      · cases hfire
    · cases hfire

theorem TimerInv_of_reachable (p : Page) (s : Carousel) (h : Reachable p s) : TimerInv s := by
  refine reachable_induction p TimerInv ?_ TimerInv_step s h
  intro s0 h0
  obtain ⟨_, rfl⟩ := initTrustCarousel_eq_some p s0 h0
  refine TimerInv_startAutoAdvance _ (TimerInv_goToSlide 0 _ ?_)
  exact ⟨fun t ht => by simp [freshState] at ht, Or.inl ⟨rfl, rfl⟩⟩

/-- C6: in every state reachable by any interleaving of listener events and deferred
callbacks, at most one autoplay interval is live, the stored handle is non-null exactly
when a live interval exists, every live interval is the one the handle names, and
`stopAutoAdvance` cancels whatever is live (nothing is leaked). -/
theorem reachable_single_autoplay_timer (p : Page) (s : Carousel) (h : Reachable p s) :
    s.intervals.length ≤ 1 ∧
    (s.autoAdvanceTimer ≠ none ↔ s.intervals ≠ []) ∧
    (∀ t ∈ s.intervals, s.autoAdvanceTimer = some t.id) ∧
    (stopAutoAdvance s).intervals = [] := by
  have hinv := TimerInv_of_reachable p s h
  refine ⟨?_, ?_, ?_, (stopAutoAdvance_of_TimerInv s hinv).2⟩
  · rcases hinv.2 with ⟨_, hint⟩ | ⟨id, d, _, _, hint⟩ <;> simp [hint]
  · rcases hinv.2 with ⟨hnone, hint⟩ | ⟨id, d, _, hsome, hint⟩ <;> simp [*]
  · rcases hinv.2 with ⟨hnone, hint⟩ | ⟨id, d, _, hsome, hint⟩ <;> simp [*]

theorem demoRunning_reachable : Reachable demoPage demoRunning :=
  Reachable.init rfl

/-- Witness of C6: the demo page right after initialisation, with its one live interval. -/
theorem reachable_single_autoplay_timer_witness :
    Reachable demoPage demoRunning ∧
    demoRunning.intervals.length ≤ 1 ∧
    (demoRunning.autoAdvanceTimer ≠ none ↔ demoRunning.intervals ≠ []) ∧
    (∀ t ∈ demoRunning.intervals, demoRunning.autoAdvanceTimer = some t.id) ∧
    (stopAutoAdvance demoRunning).intervals = [] :=
  ⟨demoRunning_reachable, reachable_single_autoplay_timer demoPage demoRunning demoRunning_reachable⟩

/-- C7: in every reachable state, `startAutoAdvance` called twice in a row leaves exactly
one live interval; the interval armed by the first call (handle `timersIssued + 1`) is
cancelled by the second, and the state after both calls is the state after the first call
except for the identity of the timer: the handle, the handle counter and the handle of
the one interval are one higher, its period and due time are the same. -/
theorem startAutoAdvance_twice (p : Page) (s : Carousel) (h : Reachable p s) :
    (startAutoAdvance s).autoAdvanceTimer = some (s.timersIssued + 1) ∧
    (startAutoAdvance s).intervals = [⟨s.timersIssued + 1, 7000, s.now + 7000⟩] ∧
    (startAutoAdvance (startAutoAdvance s)).intervals =
      [⟨s.timersIssued + 2, 7000, s.now + 7000⟩] ∧
    (∀ t ∈ (startAutoAdvance (startAutoAdvance s)).intervals, t.id ≠ s.timersIssued + 1) ∧
    startAutoAdvance (startAutoAdvance s) =
      { startAutoAdvance s with
        autoAdvanceTimer := some (s.timersIssued + 2)
        timersIssued := s.timersIssued + 2
        intervals := [⟨s.timersIssued + 2, 7000, s.now + 7000⟩] } := by
  have hinv := TimerInv_of_reachable p s h
  have hinv1 := TimerInv_startAutoAdvance s hinv
  obtain ⟨hA, hB⟩ := startAutoAdvance_of_TimerInv s hinv
  obtain ⟨_, _, _, hnow, hissued, _⟩ := startAutoAdvance_frame s
  have hC : (startAutoAdvance (startAutoAdvance s)).intervals =
      [⟨s.timersIssued + 2, 7000, s.now + 7000⟩] := by
    rw [(startAutoAdvance_of_TimerInv _ hinv1).2, hnow, hissued]
  have hkeep : (startAutoAdvance s).timeouts.filter
      (fun t => t.id != s.timersIssued + 1) = (startAutoAdvance s).timeouts := by
    rw [List.filter_eq_self]
    intro t ht
    have hle := hinv.1 t (startAutoAdvance_timeouts_subset s t ht)
    simp only [bne_iff_ne, ne_eq]
    omega
  refine ⟨hA, hB, hC, ?_, ?_⟩
  · intro t ht
    rw [hC] at ht
    rw [List.mem_singleton.mp ht]
    simp
  · generalize hs1 : startAutoAdvance s = s1 at *
    simp [startAutoAdvance, stopAutoAdvance, hA, clearInterval, setInterval, hB, hkeep,
      hnow, hissued]

/-- Witness of C7 on the demo page right after initialisation (interval 2 is replaced by
interval 3, then by interval 4). -/
theorem startAutoAdvance_twice_witness :
    Reachable demoPage demoRunning ∧
    (startAutoAdvance (startAutoAdvance demoRunning)).intervals = [⟨4, 7000, 7000⟩] :=
  ⟨demoRunning_reachable, (startAutoAdvance_twice demoPage demoRunning demoRunning_reachable).2.2.1⟩

/-- C8: `stopAutoAdvance` is a total function (it cannot fail); with a null handle it
returns the state unchanged; with an armed (truthy) handle it clears the handle and
removes every interval with that handle from the timer table; applying it twice gives
the same state as applying it once; it never changes `currentIndex` or
`isTransitioning`. -/
theorem stopAutoAdvance_safe (s : Carousel) :
    (s.autoAdvanceTimer = none → stopAutoAdvance s = s) ∧
    (∀ id, s.autoAdvanceTimer = some id → id ≠ 0 →
      (stopAutoAdvance s).autoAdvanceTimer = none ∧
      ∀ t ∈ (stopAutoAdvance s).intervals, t.id ≠ id) ∧
    stopAutoAdvance (stopAutoAdvance s) = stopAutoAdvance s ∧
    (stopAutoAdvance s).currentIndex = s.currentIndex ∧
    (stopAutoAdvance s).isTransitioning = s.isTransitioning := by
  refine ⟨?_, ?_, ?_, (stopAutoAdvance_frame s).2.1, (stopAutoAdvance_frame s).2.2.1⟩
  · intro hnone
    simp [stopAutoAdvance, hnone]
  · intro id hsome hid
    refine ⟨by simp [stopAutoAdvance, hsome, hid], ?_⟩
    intro t ht
    simp [stopAutoAdvance, hsome, hid, clearInterval] at ht
    exact ht.2
  · cases hh : s.autoAdvanceTimer with
    | none => simp [stopAutoAdvance, hh]
    | some id =>
      by_cases hid : id = 0
      · simp [stopAutoAdvance, hh, hid]
      · simp [stopAutoAdvance, hh, hid]

/-- Witness of C8: stopping the running demo carousel clears handle 2 and its interval,
and stopping it again changes nothing. -/
theorem stopAutoAdvance_safe_witness :
    (stopAutoAdvance demoRunning).autoAdvanceTimer = none ∧
    (stopAutoAdvance demoRunning).intervals = [] ∧
    stopAutoAdvance (stopAutoAdvance demoRunning) = stopAutoAdvance demoRunning :=
  ⟨((stopAutoAdvance_safe demoRunning).2.1 2 rfl (by decide)).1, by decide,
    (stopAutoAdvance_safe demoRunning).2.2.1⟩

/-! ## Transition lock -/

theorem LockInv_of_resets_subset (s s1 : Carousel) (h : LockInv s)
    (hlock : s1.isTransitioning = s.isTransitioning)
    (hsub : ∀ t ∈ s1.timeouts, t.callback = Callback.resetTransition → t ∈ s.timeouts) :
    LockInv s1 := by
  refine ⟨?_, ?_⟩
  · intro hu t ht hcb
    exact h.1 (hlock ▸ hu) t (hsub t ht hcb) hcb
  · intro t ht u hu hct hcu
    exact h.2 t (hsub t ht hct) u (hsub u hu hcu) hct hcu

theorem mem_setTimeout_startAutoAdvance (d : Nat) (s : Carousel) (t : Timeout)
    (ht : t ∈ (setTimeout Callback.startAutoAdvance d s).timeouts)
    (hcb : t.callback = Callback.resetTransition) : t ∈ s.timeouts := by
  simp only [setTimeout] at ht
  rcases List.mem_append.mp ht with ht | ht
  · exact ht
  · rw [List.mem_singleton.mp ht] at hcb
    cases hcb

theorem LockInv_goToSlide (k : Int) (s : Carousel) (h : LockInv s) :
    LockInv (goToSlide k s) := by
  cases hl : s.isTransitioning with
  | true => rw [goToSlide_of_locked k s hl]; exact h
  | false =>
    have hlocked := goToSlide_isTransitioning_of_unlocked k s hl
    have htimeouts := (goToSlide_timers_of_unlocked k s hl).2.2.2.2
    have hnew : ∀ t ∈ (goToSlide k s).timeouts, t.callback = Callback.resetTransition →
        t = ⟨s.timersIssued + 1, s.now + 500, Callback.resetTransition⟩ := by
      intro t ht hcb
      rw [htimeouts] at ht
      rcases List.mem_append.mp ht with ht | ht
      · exact absurd hcb (h.1 hl t ht)
      · exact List.mem_singleton.mp ht
    refine ⟨?_, ?_⟩
    · intro hu
      rw [hlocked] at hu
      cases hu
    · intro t ht u hu hct hcu
      rw [hnew t ht hct, hnew u hu hcu]

theorem LockInv_step (e : Event) (s s1 : Carousel) (h : LockInv s)
    (hstep : step e s = some s1) : LockInv s1 := by
  refine step_preserves LockInv LockInv_goToSlide ?_ ?_ ?_ ?_ ?_ ?_ ?_ ?_ e s s1 h hstep
  · intro s hs
    exact LockInv_of_resets_subset s _ hs (stopAutoAdvance_frame s).2.2.1
      (fun t ht _ => stopAutoAdvance_timeouts_subset s t ht)
  · intro s hs
    exact LockInv_of_resets_subset s _ hs (startAutoAdvance_frame s).2.2.1
      (fun t ht _ => startAutoAdvance_timeouts_subset s t ht)
  · intro s hs
    exact LockInv_of_resets_subset s _ hs rfl (mem_setTimeout_startAutoAdvance 1000 s)
  · intro x s hs; exact hs
  · intro x s hs; exact hs
  · intro dt s hs; exact hs
  · intro id s s1 hs hfire
    obtain ⟨t, ht, hid, _, rfl⟩ := step_timeoutFire_eq_some id s s1 hfire
    have hrem : LockInv (removeTimeout id s) :=
      LockInv_of_resets_subset s _ hs rfl (fun u hu _ => List.mem_of_mem_filter hu)
    cases hcb : t.callback with
    | resetTransition =>
      refine ⟨?_, hrem.2⟩
      intro _ u hu hcu
      have hu1 : u ∈ s.timeouts := List.mem_of_mem_filter hu
      have hne : u.id ≠ id := by
        have := (List.mem_filter.mp hu).2
        simpa using this
      exact hne ((hs.2 u hu1 t ht hcu hcb).trans hid)
    | startAutoAdvance =>
      exact LockInv_of_resets_subset _ _ hrem (startAutoAdvance_frame _).2.2.1
        (fun u hu _ => startAutoAdvance_timeouts_subset _ u hu)
  · intro id s hs; exact hs

theorem LockInv_of_reachable (p : Page) (s : Carousel) (h : Reachable p s) : LockInv s := by
  refine reachable_induction p LockInv ?_ LockInv_step s h
  intro s0 h0
  obtain ⟨_, rfl⟩ := initTrustCarousel_eq_some p s0 h0
  have hfresh : LockInv (freshState p) :=
    ⟨fun _ t ht => by simp [freshState] at ht, fun t ht => by simp [freshState] at ht⟩
  exact LockInv_of_resets_subset _ _ (LockInv_goToSlide 0 _ hfresh)
    (startAutoAdvance_frame _).2.2.1 (fun u hu _ => startAutoAdvance_timeouts_subset _ u hu)

theorem goToSlide_now (k : Int) (s : Carousel) : (goToSlide k s).now = s.now := by
  unfold goToSlide
  split <;> simp [setTimeout]

theorem step_now_le (e : Event) (s s1 : Carousel) (hstep : step e s = some s1) :
    s.now ≤ s1.now := by
  refine step_preserves (fun x => s.now ≤ x.now) ?_ ?_ ?_ ?_ ?_ ?_ ?_ ?_ ?_ e s s1
    (le_refl _) hstep
  · intro k x hx; rw [goToSlide_now]; exact hx
  · intro x hx; rw [(stopAutoAdvance_frame x).2.2.2.1]; exact hx
  · intro x hx; rw [(startAutoAdvance_frame x).2.2.2.1]; exact hx
  · intro x hx; exact hx
  · intro _ x hx; exact hx
  · intro _ x hx; exact hx
  · intro dt x hx; exact Nat.le_add_right_of_le hx
  · intro id x x1 hx hfire
    obtain ⟨t, _, _, _, rfl⟩ := step_timeoutFire_eq_some id x x1 hfire
    cases t.callback with
    | resetTransition => exact hx
    | startAutoAdvance =>
      show s.now ≤ (startAutoAdvance (removeTimeout id x)).now
      rw [(startAutoAdvance_frame _).2.2.2.1]; exact hx
  · intro _ x hx; exact hx

theorem run_now_le (es : List Event) (s s2 : Carousel) (hrun : run es s = some s2) :
    s.now ≤ s2.now := by
  induction es generalizing s with
  | nil => simp only [run] at hrun; cases hrun; exact le_refl _
  | cons e rest ih =>
    simp only [run] at hrun
    split at hrun
    · rename_i s1 h1
      exact le_trans (step_now_le e s s1 h1) (ih s1 hrun)
    · cases hrun

theorem CoolingDown_of_resets_subset (id0 T : Nat) (c : Int) (s s1 : Carousel)
    (h : CoolingDown id0 T c s)
    (hlock : s1.isTransitioning = s.isTransitioning)
    (hcur : s1.currentIndex = s.currentIndex)
    (hsub : ∀ t ∈ s1.timeouts, t.callback = Callback.resetTransition → t ∈ s.timeouts) :
    CoolingDown id0 T c s1 :=
  ⟨hlock.trans h.1, hcur.trans h.2.1, fun t ht hcb => h.2.2 t (hsub t ht hcb) hcb⟩

/-- While the carousel cools down, a step of the event loop that is not the running of
the pending reset, or that ends before the reset is due, leaves it cooling down. -/
theorem CoolingDown_step (id0 T : Nat) (c : Int) (e : Event) (s s1 : Carousel)
    (h : CoolingDown id0 T c s) (hstep : step e s = some s1)
    (hbefore : e ≠ Event.timeoutFire id0 ∨ s1.now < T) : CoolingDown id0 T c s1 := by
  refine step_preserves_but_fire (CoolingDown id0 T c) e s s1 h hstep
    ?_ ?_ ?_ ?_ ?_ ?_ ?_ ?_ ?_
  · intro k x hx
    rw [goToSlide_of_locked k x hx.1]; exact hx
  · intro x hx
    exact CoolingDown_of_resets_subset id0 T c x _ hx (stopAutoAdvance_frame x).2.2.1
      (stopAutoAdvance_frame x).2.1 (fun t ht _ => stopAutoAdvance_timeouts_subset x t ht)
  · intro x hx
    exact CoolingDown_of_resets_subset id0 T c x _ hx (startAutoAdvance_frame x).2.2.1
      (startAutoAdvance_frame x).2.1 (fun t ht _ => startAutoAdvance_timeouts_subset x t ht)
  · intro x hx
    exact CoolingDown_of_resets_subset id0 T c x _ hx rfl rfl
      (mem_setTimeout_startAutoAdvance 1000 x)
  · intro _ x hx; exact hx
  · intro _ x hx; exact hx
  · intro _ x hx; exact hx
  · intro _ x hx; exact hx
  · intro id he
    subst he
    obtain ⟨t, ht, hid, hdue, rfl⟩ := step_timeoutFire_eq_some id s s1 hstep
    have hrem : CoolingDown id0 T c (removeTimeout id s) :=
      CoolingDown_of_resets_subset id0 T c s _ h rfl rfl
        (fun u hu _ => List.mem_of_mem_filter hu)
    cases hcb : t.callback with
    | resetTransition =>
      exfalso
      obtain ⟨hid0, hT⟩ := h.2.2 t ht hcb
      rcases hbefore with hne | hlt
      · exact hne (by rw [← hid, hid0])
      · rw [hcb] at hlt
        have hnow : (runCallback Callback.resetTransition (removeTimeout id s)).now = s.now := rfl
        omega
    | startAutoAdvance =>
      exact CoolingDown_of_resets_subset id0 T c _ _ hrem (startAutoAdvance_frame _).2.2.1
        (startAutoAdvance_frame _).2.1 (fun u hu _ => startAutoAdvance_timeouts_subset _ u hu)

theorem CoolingDown_run (id0 T : Nat) (c : Int) (es : List Event) (s s2 : Carousel)
    (h : CoolingDown id0 T c s) (hrun : run es s = some s2)
    (hbefore : Event.timeoutFire id0 ∉ es ∨ s2.now < T) : CoolingDown id0 T c s2 := by
  induction es generalizing s with
  | nil => simp only [run] at hrun; cases hrun; exact h
  | cons e rest ih =>
    simp only [run] at hrun
    split at hrun
    · rename_i s1 h1
      have hle := run_now_le rest s1 s2 hrun
      refine ih s1 (CoolingDown_step id0 T c e s s1 h h1 ?_) hrun ?_
      · rcases hbefore with hnot | hlt
        · exact Or.inl (fun he => hnot (he ▸ List.mem_cons_self _ _))
        · exact Or.inr (by omega)
      · rcases hbefore with hnot | hlt
        · exact Or.inl (fun hm => hnot (List.mem_cons_of_mem _ hm))
        · exact Or.inr hlt
    · cases hrun

/-- C5: from a reachable state with the lock released, `goToSlide(i)` sets
`isTransitioning` and appends one cooldown reset, due 500 ms later, to the pending
timeouts. Whatever events follow, as long as that reset has not been run or less than
500 ms have passed, the carousel is still locked, so a second call `goToSlide(j)` changes
nothing and `currentIndex` is still the value the first call stored. -/
theorem goToSlide_cooldown_holds (p : Page) (s : Carousel) (h : Reachable p s)
    (hunlocked : s.isTransitioning = false) (i j : Int) (es : List Event) (s2 : Carousel)
    (hrun : run es (goToSlide i s) = some s2)
    (hbefore : Event.timeoutFire (s.timersIssued + 1) ∉ es ∨ s2.now < s.now + 500) :
    (goToSlide i s).isTransitioning = true ∧
    (goToSlide i s).timeouts =
      s.timeouts ++ [⟨s.timersIssued + 1, s.now + 500, Callback.resetTransition⟩] ∧
    s2.isTransitioning = true ∧
    goToSlide j s2 = s2 ∧
    (goToSlide j s2).currentIndex = (goToSlide i s).currentIndex := by
  have hlocked := goToSlide_isTransitioning_of_unlocked i s hunlocked
  have htimeouts := (goToSlide_timers_of_unlocked i s hunlocked).2.2.2.2
  have hstart : CoolingDown (s.timersIssued + 1) (s.now + 500) (goToSlide i s).currentIndex
      (goToSlide i s) := by
    refine ⟨hlocked, rfl, ?_⟩
    intro t ht hcb
    rw [htimeouts] at ht
    rcases List.mem_append.mp ht with ht | ht
    · exact absurd hcb ((LockInv_of_reachable p s h).1 hunlocked t ht)
    · rw [List.mem_singleton.mp ht]
      exact ⟨rfl, le_refl _⟩
  have hend := CoolingDown_run _ _ _ es _ s2 hstart hrun hbefore
  have hnoop := goToSlide_of_locked j s2 hend.1
  exact ⟨hlocked, htimeouts, hend.1, hnoop, by rw [hnoop]; exact hend.2.1⟩

theorem demoIdle_reachable : Reachable demoPage demoIdle :=
  Reachable.step (Event.timeoutFire 1)
    (Reachable.step (Event.advance 500) demoRunning_reachable rfl) (by decide)

/-- Witness of C5: on the idle demo page `goToSlide(2)` is followed by 300 ms, a click on
`next` (dropped), and 100 ms more; `goToSlide(0)` then still leaves slide 2 shown. -/
theorem goToSlide_cooldown_holds_witness :
    Reachable demoPage demoIdle ∧ demoIdle.isTransitioning = false ∧
    run [Event.advance 300, Event.nextClick, Event.advance 100] (goToSlide 2 demoIdle) =
      some demoCooling ∧
    demoCooling.now < demoIdle.now + 500 ∧
    (goToSlide 0 demoCooling).currentIndex = 2 :=
  ⟨demoIdle_reachable, rfl, by decide, by decide,
    (goToSlide_cooldown_holds demoPage demoIdle demoIdle_reachable rfl 2 0
      [Event.advance 300, Event.nextClick, Event.advance 100] demoCooling (by decide)
      (Or.inr (by decide))).2.2.2.2⟩

/-- C4: while `isTransitioning` is true, `goToSlide(targetIndex)` returns the state it was
given: index, lock, autoplay handle, track offset, indicator flags, pending timeouts and
live intervals are all unchanged, so the request is dropped and nothing is queued. -/
theorem goToSlide_locked_noop (s : Carousel) (targetIndex : Int)
    (hlocked : s.isTransitioning = true) :
    goToSlide targetIndex s = s := by
  unfold goToSlide
  rw [if_pos hlocked]

/-- Witness of C4: right after `goToSlide(2)` a request for slide 3 changes nothing. -/
theorem goToSlide_locked_noop_witness :
    (goToSlide 2 (demoAt 0)).isTransitioning = true ∧
    goToSlide 3 (goToSlide 2 (demoAt 0)) = goToSlide 2 (demoAt 0) :=
  ⟨rfl, goToSlide_locked_noop (goToSlide 2 (demoAt 0)) 3 rfl⟩

/-! ## Ring navigation -/

theorem nextSlide_index_of_released (s : Carousel) :
    (nextSlide (resetTransition s)).currentIndex =
      normalizeIndex s.slideCount (s.currentIndex + 1) ∧
    (nextSlide (resetTransition s)).slideCount = s.slideCount := by
  simp [nextSlide, resetTransition, goToSlide, setTimeout]

theorem prevSlide_index_of_released (s : Carousel) :
    (prevSlide (resetTransition s)).currentIndex =
      normalizeIndex s.slideCount (s.currentIndex - 1) ∧
    (prevSlide (resetTransition s)).slideCount = s.slideCount := by
  simp [prevSlide, resetTransition, goToSlide, setTimeout]

theorem normalizeIndex_pred_succ (n : Nat) (i : Int) (hlo : 0 ≤ i) (hhi : i < (n : Int)) :
    normalizeIndex n (normalizeIndex n (i + 1) - 1) = i := by
  unfold normalizeIndex
  split_ifs <;> omega

theorem normalizeIndex_succ_pred (n : Nat) (i : Int) (hlo : 0 ≤ i) (hhi : i < (n : Int)) :
    normalizeIndex n (normalizeIndex n (i - 1) + 1) = i := by
  unfold normalizeIndex
  split_ifs <;> omega

/-- C9: `nextSlide` is `goToSlide(currentIndex + 1)` and `prevSlide` is
`goToSlide(currentIndex - 1)`; with at least one slide and the lock released, `prevSlide`
from index 0 shows the last slide and `nextSlide` from the last slide shows index 0. -/
theorem nextSlide_prevSlide_wrap (s : Carousel) (hcount : 1 ≤ s.slideCount)
    (hunlocked : s.isTransitioning = false) :
    nextSlide s = goToSlide (s.currentIndex + 1) s ∧
    prevSlide s = goToSlide (s.currentIndex - 1) s ∧
    (s.currentIndex = 0 → (prevSlide s).currentIndex = (s.slideCount : Int) - 1) ∧
    (s.currentIndex = (s.slideCount : Int) - 1 → (nextSlide s).currentIndex = 0) := by
  have hn : (1 : Int) ≤ (s.slideCount : Int) := by exact_mod_cast hcount
  refine ⟨rfl, rfl, ?_, ?_⟩
  · intro h0
    unfold prevSlide
    rw [goToSlide_currentIndex_of_unlocked _ s hunlocked, h0]
    unfold normalizeIndex
    rw [if_neg (by omega), if_pos (by omega)]
  · intro hlast
    unfold nextSlide
    rw [goToSlide_currentIndex_of_unlocked _ s hunlocked, hlast]
    unfold normalizeIndex
    rw [if_pos (by omega)]

/-- Witness of C9: with 4 slides, `prevSlide` goes 0 -> 3 and `nextSlide` goes 3 -> 0. -/
theorem nextSlide_prevSlide_wrap_witness :
    1 ≤ (demoAt 0).slideCount ∧ (demoAt 0).isTransitioning = false ∧
    (prevSlide (demoAt 0)).currentIndex = 3 ∧ (nextSlide (demoAt 3)).currentIndex = 0 :=
  ⟨by decide, rfl,
    (nextSlide_prevSlide_wrap (demoAt 0) (by decide) rfl).2.2.1 rfl,
    (nextSlide_prevSlide_wrap (demoAt 3) (by decide) rfl).2.2.2 rfl⟩

/-- C10: with at least one slide and a valid index, and the lock released before each
call, `prevSlide` after `nextSlide` and `nextSlide` after `prevSlide` both return to the
index they started from; as maps of the index, each is a bijection of
`{0, ..., slideCount - 1}` onto itself and the two are inverse to each other. -/
theorem navigation_is_ring (s : Carousel) (hcount : 1 ≤ s.slideCount)
    (hlo : 0 ≤ s.currentIndex) (hhi : s.currentIndex < (s.slideCount : Int)) :
    (prevSlide (resetTransition (nextSlide (resetTransition s)))).currentIndex
      = s.currentIndex ∧
    (nextSlide (resetTransition (prevSlide (resetTransition s)))).currentIndex
      = s.currentIndex ∧
    Set.BijOn (indexAfterNext s) (Set.Ico 0 (s.slideCount : Int))
      (Set.Ico 0 (s.slideCount : Int)) ∧
    Set.BijOn (indexAfterPrev s) (Set.Ico 0 (s.slideCount : Int))
      (Set.Ico 0 (s.slideCount : Int)) ∧
    Set.InvOn (indexAfterPrev s) (indexAfterNext s) (Set.Ico 0 (s.slideCount : Int))
      (Set.Ico 0 (s.slideCount : Int)) := by
  have hnext : ∀ i, indexAfterNext s i = normalizeIndex s.slideCount (i + 1) := fun i =>
    (nextSlide_index_of_released { s with currentIndex := i }).1
  have hprev : ∀ i, indexAfterPrev s i = normalizeIndex s.slideCount (i - 1) := fun i =>
    (prevSlide_index_of_released { s with currentIndex := i }).1
  have hmapsN : Set.MapsTo (indexAfterNext s) (Set.Ico 0 (s.slideCount : Int))
      (Set.Ico 0 (s.slideCount : Int)) := fun i _ => by
    rw [hnext]
    exact ⟨normalizeIndex_nonneg _ _ hcount, normalizeIndex_lt _ _ hcount⟩
  have hmapsP : Set.MapsTo (indexAfterPrev s) (Set.Ico 0 (s.slideCount : Int))
      (Set.Ico 0 (s.slideCount : Int)) := fun i _ => by
    rw [hprev]
    exact ⟨normalizeIndex_nonneg _ _ hcount, normalizeIndex_lt _ _ hcount⟩
  have hinv : Set.InvOn (indexAfterPrev s) (indexAfterNext s)
      (Set.Ico 0 (s.slideCount : Int)) (Set.Ico 0 (s.slideCount : Int)) := by
    refine ⟨fun i hi => ?_, fun i hi => ?_⟩
    · rw [hnext, hprev]
      exact normalizeIndex_pred_succ _ _ hi.1 hi.2
    · rw [hprev, hnext]
      exact normalizeIndex_succ_pred _ _ hi.1 hi.2
  refine ⟨?_, ?_, hinv.bijOn hmapsN hmapsP, hinv.symm.bijOn hmapsP hmapsN, hinv⟩
  · obtain ⟨h1, h2⟩ := nextSlide_index_of_released s
    rw [(prevSlide_index_of_released _).1, h1, h2]
    exact normalizeIndex_pred_succ _ _ hlo hhi
  · obtain ⟨h1, h2⟩ := prevSlide_index_of_released s
    rw [(nextSlide_index_of_released _).1, h1, h2]
    exact normalizeIndex_succ_pred _ _ hlo hhi

/-- Witness of C10: on the demo page locked on slide 3, releasing the lock and calling
`nextSlide`, then releasing it and calling `prevSlide`, shows slide 3 again. -/
theorem navigation_is_ring_witness :
    1 ≤ demoAfterPrev.slideCount ∧ 0 ≤ demoAfterPrev.currentIndex ∧
    demoAfterPrev.currentIndex < (demoAfterPrev.slideCount : Int) ∧
    (prevSlide (resetTransition (nextSlide (resetTransition demoAfterPrev)))).currentIndex
      = 3 :=
  ⟨by decide, by decide, by decide,
    (navigation_is_ring demoAfterPrev (by decide) (by decide) (by decide)).1⟩

/-! ## Swipe gestures -/

/-- C11: for all integer coordinates, `handleSwipe` changes nothing when
`|startX - endX| ≤ 50`, is `nextSlide` when `startX - endX > 50`, and is `prevSlide` when
`startX - endX < -50`. -/
theorem handleSwipe_threshold (s : Carousel) (startX endX : Int) :
    (|startX - endX| ≤ 50 →
      handleSwipe (withGesture startX endX s) = withGesture startX endX s) ∧
    (startX - endX > 50 →
      handleSwipe (withGesture startX endX s) = nextSlide (withGesture startX endX s)) ∧
    (startX - endX < -50 →
      handleSwipe (withGesture startX endX s) = prevSlide (withGesture startX endX s)) := by
  have habs : ((startX - endX).natAbs : Int) = |startX - endX| := Int.natCast_natAbs _
  refine ⟨fun h => ?_, fun h => ?_, fun h => ?_⟩
  · have hle : ¬ ((startX - endX).natAbs > 50) := by omega
    simp only [handleSwipe, withGesture]
    rw [if_neg hle]
  · have hgt : (startX - endX).natAbs > 50 := by omega
    simp only [handleSwipe, withGesture]
    rw [if_pos hgt, if_pos (by omega)]
  · have hgt : (startX - endX).natAbs > 50 := by omega
    simp only [handleSwipe, withGesture]
    rw [if_pos hgt, if_neg (by omega)]

/-- Witness of C11 on the four-slide carousel at slide 0: the gesture (100, 40) shows
slide 1, the gesture (100, 80) leaves the state as it is. -/
theorem handleSwipe_threshold_witness :
    (handleSwipe (withGesture 100 40 (demoAt 0))).currentIndex = 1 ∧
    handleSwipe (withGesture 100 80 (demoAt 0)) = withGesture 100 80 (demoAt 0) :=
  ⟨by rw [(handleSwipe_threshold (demoAt 0) 100 40).2.1 (by decide)]; decide,
    (handleSwipe_threshold (demoAt 0) 100 80).1 (by decide)⟩

/-! ## Visual output of `goToSlide` -/

theorem count_true_index_flags (n : Nat) (c : Int) :
    ((List.range n).map (fun (k : Nat) => decide ((k : Int) = c))).count true =
      if 0 ≤ c ∧ c < (n : Int) then 1 else 0 := by
  induction n with
  | zero =>
    have : ¬ (0 ≤ c ∧ c < 0) := by omega
    simp [this]
  | succ n ih =>
    rw [List.range_succ, List.map_append, List.count_append, ih]
    have hcast : (((n + 1 : Nat)) : Int) = (n : Int) + 1 := by push_cast; rfl
    rw [hcast]
    by_cases hc : ((n : Int) = c)
    · have h1 : ¬ (0 ≤ c ∧ c < (n : Int)) := by omega
      have h2 : 0 ≤ c ∧ c < (n : Int) + 1 := by omega
      rw [if_neg h1, if_pos h2]
      simp [hc]
    · by_cases h1 : 0 ≤ c ∧ c < (n : Int)
      · have h2 : 0 ≤ c ∧ c < (n : Int) + 1 := by omega
        rw [if_pos h1, if_pos h2]
        simp [hc]
      · have h2 : ¬ (0 ≤ c ∧ c < (n : Int) + 1) := by omega
        rw [if_neg h1, if_neg h2]
        simp [hc]

theorem goToSlide_visual_of_unlocked (i : Int) (s : Carousel) (h : s.isTransitioning = false) :
    (goToSlide i s).trackOffset = some (-((goToSlide i s).currentIndex * 100)) ∧
    (goToSlide i s).indicators = (List.range s.indicators.length).map
      (fun (k : Nat) => decide ((k : Int) = (goToSlide i s).currentIndex)) := by
  simp [goToSlide, h, setTimeout]

/-- C12, counterexample: a four-slide carousel whose markup has two indicators; the
successful `goToSlide(3)` stores index 3 and offset -300 and leaves no indicator
selected. The same happens on the running page after `previous` is clicked at slide 0. -/
theorem goToSlide_no_indicator_selected :
    demoTwoIndicators.isTransitioning = false ∧
    (goToSlide 3 demoTwoIndicators).currentIndex = 3 ∧
    (goToSlide 3 demoTwoIndicators).trackOffset = some (-300) ∧
    (goToSlide 3 demoTwoIndicators).indicators = [false, false] ∧
    (goToSlide 3 demoTwoIndicators).indicators.count true = 0 ∧
    ((initTrustCarousel { demoPage with indicators := [true, false] }).bind
      (run [Event.advance 500, Event.timeoutFire 1, Event.prevClick])).map
        (fun s => (s.currentIndex, s.indicators)) = some (3, [false, false]) := by
  decide

/-- C12, amended: after every successful `goToSlide` the track offset is exactly
`-(currentIndex * 100)` percent, the number of indicators is unchanged, and an indicator
is marked selected exactly when its position equals `currentIndex`; so exactly one
indicator is selected when an indicator exists at position `currentIndex`, and none is
selected when the page has fewer indicators than that. -/
theorem goToSlide_visual_contract (s : Carousel) (i : Int)
    (hunlocked : s.isTransitioning = false) :
    (goToSlide i s).trackOffset = some (-((goToSlide i s).currentIndex * 100)) ∧
    (goToSlide i s).indicators.length = s.indicators.length ∧
    (∀ k (hk : k < (goToSlide i s).indicators.length),
      ((goToSlide i s).indicators.get ⟨k, hk⟩ = true ↔
        (k : Int) = (goToSlide i s).currentIndex)) ∧
    (goToSlide i s).indicators.count true =
      (if 0 ≤ (goToSlide i s).currentIndex ∧
          (goToSlide i s).currentIndex < (s.indicators.length : Int) then 1 else 0) := by
  obtain ⟨hoff, hind⟩ := goToSlide_visual_of_unlocked i s hunlocked
  refine ⟨hoff, ?_, ?_, ?_⟩
  · rw [hind]; simp
  · intro k hk
    have hget : (goToSlide i s).indicators.get ⟨k, hk⟩ =
        decide ((k : Int) = (goToSlide i s).currentIndex) := by
      simp only [List.get_eq_getElem]
      have hk2 : k < ((List.range s.indicators.length).map
          (fun (k : Nat) => decide ((k : Int) = (goToSlide i s).currentIndex))).length := by
        rw [← hind]; exact hk
      have : (goToSlide i s).indicators[k] = ((List.range s.indicators.length).map
          (fun (k : Nat) => decide ((k : Int) = (goToSlide i s).currentIndex)))[k] := by
        congr 1
      rw [this]
      simp
    rw [hget]
    simp
  · rw [hind]
    generalize (goToSlide i s).currentIndex = c
    exact count_true_index_flags _ c

/-- Witness of C12 (amended): `goToSlide(2)` on the four-indicator demo carousel emits
offset -200 and selects indicator 2 only. -/
theorem goToSlide_visual_contract_witness :
    (demoAt 0).isTransitioning = false ∧
    (goToSlide 2 (demoAt 0)).trackOffset = some (-200) ∧
    (goToSlide 2 (demoAt 0)).indicators = [false, false, true, false] ∧
    (goToSlide 2 (demoAt 0)).indicators.count true = 1 :=
  ⟨rfl, (goToSlide_visual_contract (demoAt 0) 2 rfl).1, by decide,
    (goToSlide_visual_contract (demoAt 0) 2 rfl).2.2.2⟩

/-! ## Initialisation -/

theorem not_reachable_of_init_none (p : Page) (h : initTrustCarousel p = none)
    (s : Carousel) : ¬ Reachable p s := by
  intro hr
  induction hr with
  | init h0 => rw [h] at h0; cases h0
  | step e _ _ ih => exact ih

/-- C15: on a page with the carousel region, the track and at least one slide,
`initTrustCarousel` creates the controller in the state with `currentIndex = 0`, track
offset 0, the lock set with exactly one pending timeout (the cooldown reset, due in
500 ms) and exactly one live autoplay interval (due in 7000 ms) named by the handle.
When the region or the track is missing or there are no slides, it returns before
creating anything: there is no state, and no event of the carousel can ever occur. -/
theorem initTrustCarousel_outcome (p : Page) :
    (p.hasCarousel = true → p.hasTrack = true → 1 ≤ p.slideCount →
      ∃ s, initTrustCarousel p = some s ∧ s.slideCount = p.slideCount ∧
        s.currentIndex = 0 ∧ s.trackOffset = some 0 ∧ s.isTransitioning = true ∧
        s.timeouts = [⟨p.timersIssued + 1, p.now + 500, Callback.resetTransition⟩] ∧
        s.intervals = [⟨p.timersIssued + 2, 7000, p.now + 7000⟩] ∧
        s.autoAdvanceTimer = some (p.timersIssued + 2)) ∧
    ((p.hasCarousel = false ∨ p.hasTrack = false ∨ p.slideCount = 0) →
      initTrustCarousel p = none ∧ ∀ s, ¬ Reachable p s) := by
  refine ⟨fun hc ht hn => ?_, fun h => ?_⟩
  · have hne : (p.slideCount == 0) = false := by
      simp only [beq_eq_false_iff_ne, ne_eq]
      omega
    refine ⟨startAutoAdvance (goToSlide 0 (freshState p)), ?_, ?_⟩
    · simp [initTrustCarousel, hc, ht, hne]
    · simp [startAutoAdvance, stopAutoAdvance, setInterval, goToSlide, setTimeout, freshState,
        normalizeIndex]
  · have hnone : initTrustCarousel p = none := by
      rcases h with h | h | h <;> simp [initTrustCarousel, h]
    exact ⟨hnone, not_reachable_of_init_none p hnone⟩

/-- Witness of C15: the demo page starts in `demoRunning`; the same page without slides
gets no controller. -/
theorem initTrustCarousel_outcome_witness :
    (∃ s, initTrustCarousel demoPage = some s ∧ s.slideCount = demoPage.slideCount ∧
        s.currentIndex = 0 ∧ s.trackOffset = some 0 ∧ s.isTransitioning = true ∧
        s.timeouts = [⟨demoPage.timersIssued + 1, demoPage.now + 500,
          Callback.resetTransition⟩] ∧
        s.intervals = [⟨demoPage.timersIssued + 2, 7000, demoPage.now + 7000⟩] ∧
        s.autoAdvanceTimer = some (demoPage.timersIssued + 2)) ∧
    initTrustCarousel { demoPage with slideCount := 0 } = none :=
  ⟨(initTrustCarousel_outcome demoPage).1 rfl rfl (by decide),
    ((initTrustCarousel_outcome { demoPage with slideCount := 0 }).2
      (Or.inr (Or.inr rfl))).1⟩

/-! ## Listeners of the navigation controls -/

theorem HandleInv_of_frame (s s1 : Carousel) (h : HandleInv s)
    (hhandle : s1.autoAdvanceTimer = s.autoAdvanceTimer)
    (hissued : s.timersIssued ≤ s1.timersIssued)
    (hsub : ∀ t ∈ s1.timeouts, t ∈ s.timeouts ∨ s.timersIssued < t.id) : HandleInv s1 := by
  intro id hid
  rw [hhandle] at hid
  obtain ⟨h1, h2⟩ := h id hid
  refine ⟨le_trans h1 hissued, ?_⟩
  intro t ht
  rcases hsub t ht with hold | hnew
  · exact h2 t hold
  · omega

theorem HandleInv_goToSlide (k : Int) (s : Carousel) (h : HandleInv s) :
    HandleInv (goToSlide k s) := by
  cases hl : s.isTransitioning with
  | true => rw [goToSlide_of_locked k s hl]; exact h
  | false =>
    obtain ⟨h1, _, h3, _, h5⟩ := goToSlide_timers_of_unlocked k s hl
    refine HandleInv_of_frame s _ h h1 (by omega) ?_
    intro t ht
    rw [h5] at ht
    rcases List.mem_append.mp ht with ht | ht
    · exact Or.inl ht
    · rw [List.mem_singleton.mp ht]
      exact Or.inr (Nat.lt_succ_self _)

theorem HandleInv_setTimeout (cb : Callback) (d : Nat) (s : Carousel) (h : HandleInv s) :
    HandleInv (setTimeout cb d s) := by
  refine HandleInv_of_frame s _ h rfl (Nat.le_succ _) ?_
  intro t ht
  simp only [setTimeout] at ht
  rcases List.mem_append.mp ht with ht | ht
  · exact Or.inl ht
  · rw [List.mem_singleton.mp ht]
    exact Or.inr (Nat.lt_succ_self _)

theorem TimerInv_setTimeout (cb : Callback) (d : Nat) (s : Carousel) (h : TimerInv s) :
    TimerInv (setTimeout cb d s) := by
  refine ⟨?_, h.2⟩
  intro t ht
  simp only [setTimeout] at ht
  rcases List.mem_append.mp ht with ht | ht
  · exact Nat.le_succ_of_le (h.1 t ht)
  · rw [List.mem_singleton.mp ht]
    exact le_refl _

theorem HandleInv_startAutoAdvance (s : Carousel) (h : TimerInv s) :
    HandleInv (startAutoAdvance s) := by
  intro id hid
  rw [(startAutoAdvance_of_TimerInv s h).1] at hid
  cases hid
  rw [(startAutoAdvance_frame s).2.2.2.2.1]
  refine ⟨le_refl _, ?_⟩
  intro t ht
  have := h.1 t (startAutoAdvance_timeouts_subset s t ht)
  omega

theorem TimerInv_and_HandleInv_step (e : Event) (s s1 : Carousel)
    (h : TimerInv s ∧ HandleInv s) (hstep : step e s = some s1) :
    TimerInv s1 ∧ HandleInv s1 := by
  refine ⟨TimerInv_step e s s1 h.1 hstep, ?_⟩
  refine (step_preserves (fun x => TimerInv x ∧ HandleInv x) ?_ ?_ ?_ ?_ ?_ ?_ ?_ ?_ ?_
    e s s1 h hstep).2
  · intro k x hx
    exact ⟨TimerInv_goToSlide k x hx.1, HandleInv_goToSlide k x hx.2⟩
  · intro x hx
    refine ⟨TimerInv_stopAutoAdvance x hx.1, ?_⟩
    intro id hid
    rw [(stopAutoAdvance_of_TimerInv x hx.1).1] at hid
    cases hid
  · intro x hx
    exact ⟨TimerInv_startAutoAdvance x hx.1, HandleInv_startAutoAdvance x hx.1⟩
  · intro x hx
    exact ⟨TimerInv_setTimeout _ _ x hx.1, HandleInv_setTimeout _ _ x hx.2⟩
  · intro _ x hx; exact hx
  · intro _ x hx; exact hx
  · intro _ x hx; exact hx
  · intro id x x1 hx hfire
    refine ⟨TimerInv_step _ x x1 hx.1 hfire, ?_⟩
    obtain ⟨t, _, _, _, rfl⟩ := step_timeoutFire_eq_some id x x1 hfire
    have hremT : TimerInv (removeTimeout id x) :=
      ⟨fun u hu => hx.1.1 u (List.mem_of_mem_filter hu), hx.1.2⟩
    have hremH : HandleInv (removeTimeout id x) :=
      HandleInv_of_frame x _ hx.2 rfl (le_refl _)
        (fun u hu => Or.inl (List.mem_of_mem_filter hu))
    cases t.callback with
    | resetTransition => exact hremH
    | startAutoAdvance => exact HandleInv_startAutoAdvance _ hremT
  · intro id x hx
    exact ⟨TimerInv_rearmInterval id x hx.1, hx.2⟩

theorem HandleInv_of_reachable (p : Page) (s : Carousel) (h : Reachable p s) :
    TimerInv s ∧ HandleInv s := by
  refine reachable_induction p (fun x => TimerInv x ∧ HandleInv x) ?_
    TimerInv_and_HandleInv_step s h
  intro s0 h0
  refine ⟨TimerInv_of_reachable p s0 (Reachable.init h0), ?_⟩
  obtain ⟨_, rfl⟩ := initTrustCarousel_eq_some p s0 h0
  refine HandleInv_startAutoAdvance _ (TimerInv_goToSlide 0 _ ?_)
  exact ⟨fun t ht => by simp [freshState] at ht, Or.inl ⟨rfl, rfl⟩⟩

/-- With the timer discipline in force, `stopAutoAdvance` leaves no interval, clears the
handle and does not touch the pending timeouts. -/
theorem stopAutoAdvance_timeouts_of_inv (s : Carousel) (h : TimerInv s ∧ HandleInv s) :
    (stopAutoAdvance s).timeouts = s.timeouts := by
  cases hh : s.autoAdvanceTimer with
  | none => simp [stopAutoAdvance, hh]
  | some id =>
    by_cases hid : id = 0
    · simp [stopAutoAdvance, hh, hid]
    · have hkeep : s.timeouts.filter (fun t => t.id != id) = s.timeouts := by
        rw [List.filter_eq_self]
        intro t ht
        simpa using (h.2 id hh).2 t ht
      simp [stopAutoAdvance, hh, hid, clearInterval, hkeep]

theorem step_of_specNavigation (e : Event) (nav : Carousel → Carousel) (s s1 : Carousel)
    (hnav : specNavigation e = some nav) (hstep : step e s = some s1) :
    s1 = setTimeout Callback.startAutoAdvance 1000 (stopAutoAdvance (nav s)) ∧
    ∃ k, nav s = goToSlide k s := by
  cases e with
  | prevClick =>
    simp only [specNavigation, Option.some.injEq] at hnav
    subst hnav
    simp only [step] at hstep
    split at hstep
    · cases hstep; exact ⟨rfl, _, rfl⟩
    · cases hstep
  | nextClick =>
    simp only [specNavigation, Option.some.injEq] at hnav
    subst hnav
    simp only [step] at hstep
    split at hstep
    · cases hstep; exact ⟨rfl, _, rfl⟩
    · cases hstep
  | indicatorClick i =>
    cases i with
    | none => simp [specNavigation] at hnav
    | some n =>
      simp only [specNavigation, Option.some.injEq] at hnav
      subst hnav
      simp only [step] at hstep
      cases hstep; exact ⟨rfl, _, rfl⟩
  | keydown k =>
    cases k with
    | arrowLeft =>
      simp only [specNavigation, Option.some.injEq] at hnav
      subst hnav
      simp only [step] at hstep
      cases hstep; exact ⟨rfl, _, rfl⟩
    | arrowRight =>
      simp only [specNavigation, Option.some.injEq] at hnav
      subst hnav
      simp only [step] at hstep
      cases hstep; exact ⟨rfl, _, rfl⟩
    | other => simp [specNavigation] at hnav
  | touchStart x => simp [specNavigation] at hnav
  | touchEnd x => simp [specNavigation] at hnav
  | mouseEnter => simp [specNavigation] at hnav
  | mouseLeave => simp [specNavigation] at hnav
  | visibilityChange h => simp [specNavigation] at hnav
  | timeoutFire id => simp [specNavigation] at hnav
  | intervalFire id => simp [specNavigation] at hnav
  | advance dt => simp [specNavigation] at hnav

/-- C14: in every reachable state, the listener of `previous`, `next`, indicator `N`,
left arrow or right arrow performs the navigation of the event table (`prevSlide`,
`nextSlide` or `goToSlide(N)`), then `stopAutoAdvance`, then one
`setTimeout(startAutoAdvance, 1000)`. When it returns, the handle is null and no autoplay
interval is live, and the pending timeouts are those left by the navigation plus exactly
one resume callback due 1000 ms later; this holds whether or not the lock dropped the
navigation. -/
theorem navigation_listener_sequence (p : Page) (s : Carousel) (h : Reachable p s)
    (e : Event) (nav : Carousel → Carousel) (hnav : specNavigation e = some nav)
    (s1 : Carousel) (hstep : step e s = some s1) :
    s1 = setTimeout Callback.startAutoAdvance 1000 (stopAutoAdvance (nav s)) ∧
    s1.autoAdvanceTimer = none ∧ s1.intervals = [] ∧
    s1.timeouts = (nav s).timeouts ++
      [⟨(nav s).timersIssued + 1, s.now + 1000, Callback.startAutoAdvance⟩] := by
  obtain ⟨hs1, k, hk⟩ := step_of_specNavigation e nav s s1 hnav hstep
  obtain ⟨hT, hH⟩ := HandleInv_of_reachable p s h
  have hT1 : TimerInv (nav s) := hk ▸ TimerInv_goToSlide k s hT
  have hH1 : HandleInv (nav s) := hk ▸ HandleInv_goToSlide k s hH
  obtain ⟨hnone, hint⟩ := stopAutoAdvance_of_TimerInv (nav s) hT1
  have hkeep := stopAutoAdvance_timeouts_of_inv (nav s) ⟨hT1, hH1⟩
  obtain ⟨_, _, _, hnow, hissued⟩ := stopAutoAdvance_frame (nav s)
  have hnavnow : (nav s).now = s.now := by rw [hk]; exact goToSlide_now k s
  refine ⟨hs1, ?_, ?_, ?_⟩
  · rw [hs1]; exact hnone
  · rw [hs1]; exact hint
  · rw [hs1]
    simp only [setTimeout]
    rw [hkeep, hnow, hissued, hnavnow]

theorem demoAfterNext_step : step Event.nextClick demoIdle = some demoAfterNext := by
  decide

/-- Witness of C14: a click on `next` on the idle demo page (autoplay interval 2 live). -/
theorem navigation_listener_sequence_witness :
    Reachable demoPage demoIdle ∧ specNavigation Event.nextClick = some nextSlide ∧
    step Event.nextClick demoIdle = some demoAfterNext ∧
    demoAfterNext.autoAdvanceTimer = none ∧ demoAfterNext.intervals = [] ∧
    demoAfterNext.timeouts = (nextSlide demoIdle).timeouts ++
      [⟨(nextSlide demoIdle).timersIssued + 1, demoIdle.now + 1000,
        Callback.startAutoAdvance⟩] :=
  ⟨demoIdle_reachable, rfl, demoAfterNext_step,
    (navigation_listener_sequence demoPage demoIdle demoIdle_reachable Event.nextClick
      nextSlide rfl demoAfterNext demoAfterNext_step).2⟩

/-! ## Autoplay after a manual navigation -/

theorem goToSlide_intervals (k : Int) (s : Carousel) :
    (goToSlide k s).intervals = s.intervals := by
  unfold goToSlide
  split <;> simp [setTimeout]

theorem stopAutoAdvance_intervals_subset (s : Carousel) (t : Interval)
    (h : t ∈ (stopAutoAdvance s).intervals) : t ∈ s.intervals := by
  unfold stopAutoAdvance at h
  split at h
  · split at h
    · simp only [clearInterval] at h
      exact List.mem_of_mem_filter h
    · exact h
  · exact h

theorem startAutoAdvance_intervals (s : Carousel) :
    (startAutoAdvance s).intervals =
      (stopAutoAdvance s).intervals ++ [⟨s.timersIssued + 1, 7000, s.now + 7000⟩] := by
  obtain ⟨_, _, _, hnow, hissued⟩ := stopAutoAdvance_frame s
  simp [startAutoAdvance, setInterval, hnow, hissued]

theorem Quiet_startAutoAdvance (T : Nat) (s : Carousel) (h : Quiet T s) :
    Quiet T (startAutoAdvance s) := by
  refine ⟨?_, ?_⟩
  · intro t ht
    rw [startAutoAdvance_intervals] at ht
    rcases List.mem_append.mp ht with ht | ht
    · exact h.1 t (stopAutoAdvance_intervals_subset s t ht)
    · rw [List.mem_singleton.mp ht]
      exact ⟨h.2, rfl⟩
  · rw [(startAutoAdvance_frame s).2.2.2.1]
    exact h.2

theorem Quiet_step (T : Nat) (e : Event) (s s1 : Carousel) (h : Quiet T s)
    (hstep : step e s = some s1) : Quiet T s1 := by
  refine step_preserves (Quiet T) ?_ ?_ (Quiet_startAutoAdvance T) ?_ ?_ ?_ ?_ ?_ ?_
    e s s1 h hstep
  · intro k x hx
    unfold Quiet
    rw [goToSlide_intervals, goToSlide_now]
    exact hx
  · intro x hx
    refine ⟨fun t ht => hx.1 t (stopAutoAdvance_intervals_subset x t ht), ?_⟩
    rw [(stopAutoAdvance_frame x).2.2.2.1]
    exact hx.2
  · intro x hx; exact hx
  · intro _ x hx; exact hx
  · intro _ x hx; exact hx
  · intro dt x hx
    exact ⟨hx.1, Nat.le_trans hx.2 (by simp only; omega)⟩
  · intro id x x1 hx hfire
    obtain ⟨t, _, _, _, rfl⟩ := step_timeoutFire_eq_some id x x1 hfire
    have hrem : Quiet T (removeTimeout id x) := hx
    cases t.callback with
    | resetTransition => exact hrem
    | startAutoAdvance => exact Quiet_startAutoAdvance T _ hrem
  · intro id x hx
    refine ⟨?_, hx.2⟩
    intro t ht
    simp only [rearmInterval, List.mem_map] at ht
    obtain ⟨u, hu, rfl⟩ := ht
    obtain ⟨hdue, hper⟩ := hx.1 u hu
    split
    · exact ⟨by simp only [hper]; exact hx.2, hper⟩
    · exact ⟨hdue, hper⟩

theorem Quiet_run (T : Nat) (es : List Event) (s s2 : Carousel) (h : Quiet T s)
    (hrun : run es s = some s2) : Quiet T s2 := by
  induction es generalizing s with
  | nil => simp only [run] at hrun; cases hrun; exact h
  | cons e rest ih =>
    simp only [run] at hrun
    split at hrun
    · rename_i s1 h1
      exact ih s1 (Quiet_step T e s s1 h h1) hrun
    · cases hrun

/-- An autoplay tick runs only when a live interval is due. -/
theorem step_intervalFire_eq_some (id : Nat) (s s1 : Carousel)
    (h : step (Event.intervalFire id) s = some s1) :
    ∃ t ∈ s.intervals, t.due ≤ s.now := by
  simp only [step] at h
  split at h
  · rename_i t hfind
    split at h
    · rename_i hdue
      exact ⟨t, List.mem_of_find?_eq_some hfind, hdue⟩
    · cases h
  · cases h

theorem handleSwipe_frame (s : Carousel) :
    (handleSwipe s).intervals = s.intervals ∧ (handleSwipe s).now = s.now := by
  unfold handleSwipe
  simp only
  split
  · split
    · exact ⟨goToSlide_intervals _ s, goToSlide_now _ s⟩
    · exact ⟨goToSlide_intervals _ s, goToSlide_now _ s⟩
  · exact ⟨rfl, rfl⟩

/-- C13, counterexample: on the running demo page a finger stays down from 1000 ms to
8400 ms while the resume callback of an earlier click re-arms autoplay (interval 5, due
at 8500 ms). The swipe at 8400 ms navigates from slide 1 to slide 2 and schedules its
resume callback for 9400 ms, but interval 5 stays live; at 8900 ms, once the cooldown
has ended, its tick runs and shows slide 3. -/
theorem swipe_then_autoplay_tick :
    (run longTouchTrace demoRunning).map
      (fun s => (s.now, s.currentIndex, s.intervals)) =
      some (8400, 1, [⟨5, 7000, 8500⟩]) ∧
    (run (longTouchTrace ++ [Event.touchEnd 40]) demoRunning).map
      (fun s => (s.now, s.currentIndex, s.intervals, s.timeouts)) =
      some (8400, 2, [⟨5, 7000, 8500⟩],
        [⟨6, 8900, Callback.resetTransition⟩, ⟨7, 9400, Callback.startAutoAdvance⟩]) ∧
    (run (longTouchTrace ++ [Event.touchEnd 40, Event.advance 500, Event.timeoutFire 6,
        Event.intervalFire 5]) demoRunning).map
      (fun s => (s.now, s.currentIndex)) = some (8900, 3) := by
  decide

/-- C13, amended: in every timed event trace, a navigation by the `previous` or `next`
control, an indicator or an arrow key stops autoplay synchronously before its 1000 ms
resume callback is scheduled, so no autoplay tick runs between that navigation and the
moment its resume delay elapses. The `touchend` listener does not stop autoplay (the
`touchstart` listener did); after a swipe the same holds when no autoplay interval is
live at touch end. -/
theorem manual_navigation_then_quiet (p : Page) (s : Carousel) (h : Reachable p s)
    (e : Event)
    (hkind : (∃ nav, specNavigation e = some nav) ∨
      ((∃ x, e = Event.touchEnd x) ∧ s.intervals = []))
    (s1 : Carousel) (hstep : step e s = some s1)
    (es : List Event) (s2 s3 : Carousel) (id : Nat)
    (hrun : run es s1 = some s2) (htick : step (Event.intervalFire id) s2 = some s3) :
    s1.intervals = [] ∧
    (∃ k, (⟨k, s.now + 1000, Callback.startAutoAdvance⟩ : Timeout) ∈ s1.timeouts) ∧
    s.now + 1000 ≤ s2.now := by
  have hfacts : s1.intervals = [] ∧
      ∃ k, (⟨k, s.now + 1000, Callback.startAutoAdvance⟩ : Timeout) ∈ s1.timeouts := by
    rcases hkind with ⟨nav, hnav⟩ | ⟨⟨x, rfl⟩, hempty⟩
    · obtain ⟨hs1, k, hk⟩ := step_of_specNavigation e nav s s1 hnav hstep
      have hT1 : TimerInv (nav s) := hk ▸ TimerInv_goToSlide k s (TimerInv_of_reachable p s h)
      have hnow : (stopAutoAdvance (nav s)).now = s.now := by
        rw [(stopAutoAdvance_frame (nav s)).2.2.2.1, hk]
        exact goToSlide_now k s
      refine ⟨?_, (stopAutoAdvance (nav s)).timersIssued + 1, ?_⟩
      · rw [hs1]; exact (stopAutoAdvance_of_TimerInv (nav s) hT1).2
      · rw [hs1]
        simp only [setTimeout, hnow]
        exact List.mem_append_right _ (List.mem_singleton.mpr rfl)
    · simp only [step, Option.some.injEq] at hstep
      subst hstep
      obtain ⟨hint, hnow⟩ := handleSwipe_frame { s with touchEndX := x }
      refine ⟨?_, (handleSwipe { s with touchEndX := x }).timersIssued + 1, ?_⟩
      · show (handleSwipe { s with touchEndX := x }).intervals = []
        rw [hint]; exact hempty
      · simp only [onTouchEnd, setTimeout, hnow]
        exact List.mem_append_right _ (List.mem_singleton.mpr rfl)
  refine ⟨hfacts.1, hfacts.2, ?_⟩
  have hquiet : Quiet (s.now + 1000) s1 := by
    refine ⟨?_, ?_⟩
    · intro t ht
      rw [hfacts.1] at ht
      cases ht
    · have := step_now_le e s s1 hstep
      omega
  obtain ⟨t, ht, hdue⟩ := step_intervalFire_eq_some id s2 s3 htick
  have := ((Quiet_run _ es s1 s2 hquiet hrun).1 t ht).1
  omega

/-- Witness of C13 (amended): after the click on `next` at 500 ms on the idle demo page,
the resume callback runs at 1500 ms and the first tick of the new interval at 8500 ms. -/
theorem manual_navigation_then_quiet_witness :
    Reachable demoPage demoIdle ∧
    step Event.nextClick demoIdle = some demoAfterNext ∧
    (run [Event.advance 1000, Event.timeoutFire 4, Event.advance 7000]
      demoAfterNext).map (fun s => s.now) = some 8500 ∧
    ((run [Event.advance 1000, Event.timeoutFire 4, Event.advance 7000,
      Event.intervalFire 5] demoAfterNext).isSome = true) ∧
    demoIdle.now + 1000 ≤
      ((run [Event.advance 1000, Event.timeoutFire 4, Event.advance 7000]
        demoAfterNext).getD demoAfterNext).now :=
  ⟨demoIdle_reachable, demoAfterNext_step, by decide, by decide,
    (manual_navigation_then_quiet demoPage demoIdle demoIdle_reachable Event.nextClick
      (Or.inl ⟨nextSlide, rfl⟩) demoAfterNext demoAfterNext_step
      [Event.advance 1000, Event.timeoutFire 4, Event.advance 7000]
      ((run [Event.advance 1000, Event.timeoutFire 4, Event.advance 7000]
        demoAfterNext).getD demoAfterNext)
      ((step (Event.intervalFire 5)
        ((run [Event.advance 1000, Event.timeoutFire 4, Event.advance 7000]
          demoAfterNext).getD demoAfterNext)).getD demoAfterNext)
      5 (by decide) (by decide)).2.2⟩

end TrustCarousel

/-! # FAQ accordion (`src/script.js`) -/

namespace Faq

theorem click_of_inactive (k : Nat) (qs : List Item) (q : Item) (hq : qs[k]? = some q)
    (h : q.active = false) : click k qs = (qs.map close).set k (openItem (close q)) := by
  simp [click, hq, h]

theorem click_of_active (k : Nat) (qs : List Item) (q : Item) (hq : qs[k]? = some q)
    (h : q.active = true) : click k qs = qs.map close := by
  simp [click, hq, h]

theorem click_length (k : Nat) (qs : List Item) : (click k qs).length = qs.length := by
  unfold click
  split
  · rfl
  · simp only
    split <;> simp

theorem clicks_length (ks : List Nat) (qs : List Item) :
    (clicks ks qs).length = qs.length := by
  induction ks generalizing qs with
  | nil => rfl
  | cons k rest ih =>
    show (clicks rest (click k qs)).length = qs.length
    rw [ih, click_length]

theorem countP_active_map_close (qs : List Item) :
    (qs.map close).countP (fun q => q.active) = 0 := by
  rw [List.countP_eq_zero]
  intro q hq
  obtain ⟨q0, _, rfl⟩ := List.mem_map.mp hq
  simp [close]

theorem countP_set_le (p : Item → Bool) (qs : List Item) (k : Nat) (a : Item) :
    (qs.set k a).countP p ≤ qs.countP p + 1 := by
  induction qs generalizing k with
  | nil => simp
  | cons q rest ih =>
    cases k with
    | zero =>
      simp only [List.set_cons_zero, List.countP_cons]
      split <;> split <;> omega
    | succ k =>
      simp only [List.set_cons_succ, List.countP_cons]
      have := ih k
      omega

/-- C19: for every list of FAQ questions and every sequence of clicks on them, the click
on question `k` that follows leaves at most one question active. If `k` was inactive
before the click, then afterwards question `k` is active and no other is, and the
max-height of every other answer is cleared; if `k` was the active one, no question is
active afterwards. -/
theorem click_leaves_at_most_one_active (qs : List Item) (ks : List Nat) (k : Nat)
    (hk : k < qs.length) :
    clicks (ks ++ [k]) qs = click k (clicks ks qs) ∧
    (∃ before, (clicks ks qs)[k]? = some before ∧
      (before.active = false →
        ∀ j q, (click k (clicks ks qs))[j]? = some q →
          (q.active = true ↔ j = k) ∧ (j ≠ k → q.maxHeight = none)) ∧
      (before.active = true →
        ∀ q ∈ click k (clicks ks qs), q.active = false ∧ q.maxHeight = none)) ∧
    (clicks (ks ++ [k]) qs).countP (fun q => q.active) ≤ 1 := by
  have hsnoc : clicks (ks ++ [k]) qs = click k (clicks ks qs) := by
    simp [clicks, List.foldl_append]
  generalize hst : clicks ks qs = st at hsnoc
  have hlen : k < st.length := by rw [← hst, clicks_length]; exact hk
  have hget : st[k]? = some (st.get ⟨k, hlen⟩) := by simp
  generalize st.get ⟨k, hlen⟩ = before at hget
  refine ⟨hsnoc, ⟨before, hget, ?_, ?_⟩, ?_⟩
  · intro hinactive j q hj
    rw [click_of_inactive k st before hget hinactive, List.getElem?_set] at hj
    by_cases hkj : k = j
    · subst hkj
      have hlen2 : k < (st.map close).length := by simpa using hlen
      rw [if_pos rfl, if_pos hlen2] at hj
      cases hj
      simp [openItem]
    · rw [if_neg hkj, List.getElem?_map] at hj
      cases hq0 : st[j]? with
      | none => rw [hq0] at hj; cases hj
      | some q0 =>
        rw [hq0] at hj
        cases hj
        have : ¬ j = k := fun h => hkj h.symm
        simp [close, this]
  · intro hactive q hq
    rw [click_of_active k st before hget hactive] at hq
    obtain ⟨q0, _, rfl⟩ := List.mem_map.mp hq
    simp [close]
  · rw [hsnoc]
    cases hb : before.active with
    | true =>
      rw [click_of_active k st before hget hb, countP_active_map_close]
      exact Nat.zero_le _
    | false =>
      rw [click_of_inactive k st before hget hb]
      have := countP_set_le (fun q => q.active) (st.map close) k (openItem (close before))
      rw [countP_active_map_close] at this
      exact this

/-- Witness of C19: three questions of which two are marked open; clicking question 1
leaves only question 1 open, clicking it again leaves none open. -/
theorem click_leaves_at_most_one_active_witness :
    (clicks [1] demoItems).map (fun q => q.active) = [false, true, false] ∧
    (clicks [1, 1] demoItems).map (fun q => q.active) = [false, false, false] ∧
    (clicks ([1] ++ [1]) demoItems).countP (fun q => q.active) ≤ 1 :=
  ⟨by decide, by decide,
    (click_leaves_at_most_one_active demoItems [1] 1 (by decide)).2.2⟩

end Faq

/-! # Date constraints (`src/js/main.js`, `src/main.js.js`) -/

namespace DateConstraints

/-- C18, the code at the failing input: when the page is loaded on 30 November 2025, at
a time of day that exists on 2 March 2026 in the zone of the visitor, the maximum is set
to `2026-03-02`. Its month is March, not `(November + 3)` wrapped, which is February, and
its day is 2, not 30: the comment on line 319, `Set maximum date to 3 months from now`,
and the claim both put the maximum in February. -/
theorem maxAttribute_november_30 (zone : Zone) (ms : Nat)
    (hexists : zone ⟨⟨2026, 2, 2⟩, ms⟩ = ⟨⟨2026, 2, 2⟩, ms⟩) :
    (⟨2025, 10, 30⟩ : CalendarDate).Valid ∧
    maxAttribute zone ⟨⟨2025, 10, 30⟩, ms⟩ = "2026-03-02" ∧
    (maxDate zone ⟨⟨2025, 10, 30⟩, ms⟩).date.month ≠ (10 + 3) % 12 ∧
    (maxDate zone ⟨⟨2025, 10, 30⟩, ms⟩).date.day ≠ 30 := by
  have hmake : makeDay ⟨2025, 10, 30⟩ (10 + 3) = ⟨2026, 2, 2⟩ := by decide
  have hmax : maxDate zone ⟨⟨2025, 10, 30⟩, ms⟩ = ⟨⟨2026, 2, 2⟩, ms⟩ := by
    show zone ⟨makeDay ⟨2025, 10, 30⟩ (10 + 3), ms⟩ = ⟨⟨2026, 2, 2⟩, ms⟩
    rw [hmake]
    exact hexists
  refine ⟨?_, ?_, ?_, ?_⟩
  · unfold CalendarDate.Valid; decide
  · simp only [maxAttribute, hmax]
    decide
  · rw [hmax]
    show (2 : Nat) ≠ (10 + 3) % 12
    decide
  · rw [hmax]
    show (2 : Nat) ≠ 30
    decide

/-- The zone matters: loaded at 23:30 on 27 December 2026 in America/Nuuk, where 23:30 on
27 March 2027 is skipped, the maximum is `2027-03-28`; at noon it is `2027-03-27`. -/
theorem maxAttribute_skipped_hour :
    maxAttribute nuukSpring2027 ⟨⟨2026, 11, 27⟩, 84600000⟩ = "2027-03-28" ∧
    maxAttribute nuukSpring2027 ⟨⟨2026, 11, 27⟩, 43200000⟩ = "2027-03-27" := by
  decide

/-- Witness of C18: the page loaded at noon on 30 November 2025 in a zone without clock
changes. -/
theorem maxAttribute_november_30_witness :
    fixedOffset ⟨⟨2026, 2, 2⟩, 43200000⟩ = ⟨⟨2026, 2, 2⟩, 43200000⟩ ∧
    maxAttribute fixedOffset ⟨⟨2025, 10, 30⟩, 43200000⟩ = "2026-03-02" :=
  ⟨rfl, (maxAttribute_november_30 fixedOffset 43200000 rfl).2.1⟩

end DateConstraints

/-! # Appointment form validation (`src/js/main.js`, `src/main.js.js`, `src/script.js`) -/

namespace Forms

/-! ## The matcher decides the language of a pattern -/

namespace Regex

theorem nullable_iff_Lang_nil (r : Regex) : nullable r = true ↔ Lang r [] := by
  induction r with
  | empty => simp [nullable, Lang]
  | eps => simp [nullable, Lang]
  | cls p => simp [nullable, Lang]
  | alt a b iha ihb => simp [nullable, Lang, iha, ihb]
  | seq a b iha ihb =>
    simp only [nullable, Lang, Bool.and_eq_true, iha, ihb]
    constructor
    · intro h
      exact ⟨[], [], rfl, h.1, h.2⟩
    · rintro ⟨x, y, hxy, hx, hy⟩
      have hx0 : x = [] := (List.append_eq_nil.mp hxy.symm).1
      have hy0 : y = [] := (List.append_eq_nil.mp hxy.symm).2
      subst hx0 hy0
      exact ⟨hx, hy⟩
  | star a _ =>
    simp only [nullable, Lang, true_iff]
    exact ⟨[], rfl, fun x hx => by cases hx⟩

theorem Lang_star_cons (a : Regex) (c : CodeUnit) (s : JsString) :
    Lang (star a) (c :: s) ↔ ∃ x y, s = x ++ y ∧ Lang a (c :: x) ∧ Lang (star a) y := by
  constructor
  · intro h
    simp only [Lang] at h
    obtain ⟨parts, hflat, hparts⟩ := h
    cases parts with
    | nil => cases hflat
    | cons p ps =>
      obtain ⟨hne, hp⟩ := hparts p (List.mem_cons_self _ _)
      cases p with
      | nil => exact absurd rfl hne
      | cons d x =>
        simp only [List.flatten_cons, List.cons_append, List.cons.injEq] at hflat
        obtain ⟨rfl, rfl⟩ := hflat
        refine ⟨x, ps.flatten, rfl, hp, ?_⟩
        simp only [Lang]
        exact ⟨ps, rfl, fun q hq => hparts q (List.mem_cons_of_mem _ hq)⟩
  · rintro ⟨x, y, rfl, hx, hy⟩
    simp only [Lang] at hy ⊢
    obtain ⟨parts, rfl, hparts⟩ := hy
    refine ⟨(c :: x) :: parts, by simp, ?_⟩
    intro q hq
    rcases List.mem_cons.mp hq with rfl | hq
    · exact ⟨by simp, hx⟩
    · exact hparts q hq

theorem Lang_deriv (c : CodeUnit) (r : Regex) (s : JsString) :
    Lang (deriv c r) s ↔ Lang r (c :: s) := by
  induction r generalizing s with
  | empty => simp [deriv, Lang]
  | eps => simp [deriv, Lang]
  | cls p =>
    simp only [deriv]
    by_cases hp : p c = true
    · simp only [hp, Lang, if_true, List.cons.injEq]
      constructor
      · intro h; exact ⟨c, ⟨rfl, h⟩, hp⟩
      · rintro ⟨_, ⟨_, h⟩, _⟩; exact h
    · simp only [hp, Lang]
      simp only [Bool.false_eq_true, if_false, false_iff, not_exists, not_and]
      intro d hd
      simp only [List.cons.injEq] at hd
      rw [← hd.1]
      exact hp
  | alt a b iha ihb => simp only [deriv, Lang, iha, ihb]
  | seq a b iha ihb =>
    have hcons : Lang (seq a b) (c :: s) ↔
        (Lang a [] ∧ Lang b (c :: s)) ∨ ∃ x y, s = x ++ y ∧ Lang a (c :: x) ∧ Lang b y := by
      constructor
      · intro h
        simp only [Lang] at h
        obtain ⟨x, y, hxy, hx, hy⟩ := h
        cases x with
        | nil =>
          simp only [List.nil_append] at hxy
          subst hxy
          exact Or.inl ⟨hx, hy⟩
        | cons d x =>
          simp only [List.cons_append, List.cons.injEq] at hxy
          obtain ⟨rfl, rfl⟩ := hxy
          exact Or.inr ⟨x, y, rfl, hx, hy⟩
      · rintro (⟨hx, hy⟩ | ⟨x, y, rfl, hx, hy⟩)
        · simp only [Lang]
          exact ⟨[], c :: s, rfl, hx, hy⟩
        · simp only [Lang]
          exact ⟨c :: x, y, rfl, hx, hy⟩
    have hleft : Lang (seq (deriv c a) b) s ↔ ∃ x y, s = x ++ y ∧ Lang a (c :: x) ∧ Lang b y := by
      simp only [Lang, iha]
    rw [hcons]
    simp only [deriv]
    by_cases hn : nullable a = true
    · have hnil : Lang a [] := (nullable_iff_Lang_nil a).mp hn
      rw [if_pos hn]
      have : Lang (alt (seq (deriv c a) b) (deriv c b)) s ↔
          Lang (seq (deriv c a) b) s ∨ Lang (deriv c b) s := by simp only [Lang]
      rw [this, hleft, ihb]
      constructor
      · rintro (h | h)
        · exact Or.inr h
        · exact Or.inl ⟨hnil, h⟩
      · rintro (h | h)
        · exact Or.inr h.2
        · exact Or.inl h
    · have hnil : ¬ Lang a [] := fun h => hn ((nullable_iff_Lang_nil a).mpr h)
      rw [if_neg hn, hleft]
      constructor
      · intro h; exact Or.inr h
      · rintro (h | h)
        · exact absurd h.1 hnil
        · exact h
  | star a iha =>
    rw [Lang_star_cons]
    simp only [deriv]
    constructor
    · intro h
      simp only [Lang] at h
      obtain ⟨x, y, hxy, hx, hy⟩ := h
      refine ⟨x, y, hxy, (iha x).mp hx, ?_⟩
      simp only [Lang]
      exact hy
    · rintro ⟨x, y, hxy, hx, hy⟩
      simp only [Lang] at hy ⊢
      exact ⟨x, y, hxy, (iha x).mpr hx, hy⟩

/-- The matcher accepts exactly the strings of the language of the pattern. -/
theorem test_iff_Lang (r : Regex) (s : JsString) : test r s = true ↔ Lang r s := by
  induction s generalizing r with
  | nil => simp only [test]; exact nullable_iff_Lang_nil r
  | cons c rest ih =>
    simp only [test]
    rw [ih, Lang_deriv]

end Regex

/-! ## Name validators of the three scripts -/

theorem firstName_accepts_iff (s : JsString) :
    validators.firstName s = "" ↔ 2 ≤ (trim s).length := by
  unfold validators.firstName
  by_cases h : (trim s).length ≥ 2
  · simp [h]
  · rw [if_neg h]
    constructor
    · intro hmsg; exact absurd hmsg (by decide)
    · intro h2; exact absurd h2 h

theorem lastName_accepts_iff (s : JsString) :
    validators.lastName s = "" ↔ 2 ≤ (trim s).length := by
  unfold validators.lastName
  by_cases h : (trim s).length ≥ 2
  · simp [h]
  · rw [if_neg h]
    constructor
    · intro hmsg; exact absurd hmsg (by decide)
    · intro h2; exact absurd h2 h

theorem validateName_iff (s : JsString) : validateName s = true ↔ 3 ≤ (trim s).length := by
  simp [validateName]

/-- C16: for every string, `validators.firstName` and `validators.lastName` of
`js/main.js` and `main.js.js` accept it exactly when its trimmed length is at least 2,
and `validateName` of `script.js` exactly when it is at least 3. So whatever `script.js`
accepts the other two accept, the copies disagree exactly on the strings of trimmed
length 2, and such a string exists (`Al`): the validators are not equivalent. -/
theorem name_validators_differ (s : JsString) :
    (validators.firstName s = "" ↔ 2 ≤ (trim s).length) ∧
    (validators.lastName s = "" ↔ 2 ≤ (trim s).length) ∧
    (validateName s = true ↔ 3 ≤ (trim s).length) ∧
    (validateName s = true → validators.firstName s = "" ∧ validators.lastName s = "") ∧
    (¬ (validators.firstName s = "" ↔ validateName s = true) ↔ (trim s).length = 2) ∧
    (¬ (validators.lastName s = "" ↔ validateName s = true) ↔ (trim s).length = 2) ∧
    (validators.firstName (utf16 " Al ") = "" ∧ validators.lastName (utf16 " Al ") = "" ∧
      validateName (utf16 " Al ") = false) := by
  have h1 := firstName_accepts_iff s
  have h2 := lastName_accepts_iff s
  have h3 := validateName_iff s
  refine ⟨h1, h2, h3, ?_, ?_, ?_, by decide, by decide, by decide⟩
  · intro h
    exact ⟨h1.mpr (by have := h3.mp h; omega), h2.mpr (by have := h3.mp h; omega)⟩
  · rw [h1, h3]
    constructor
    · intro h
      by_contra hne
      apply h
      constructor <;> intro <;> omega
    · intro h hiff
      have := hiff.mp (by omega)
      omega
  · rw [h2, h3]
    constructor
    · intro h
      by_contra hne
      apply h
      constructor <;> intro <;> omega
    · intro h hiff
      have := hiff.mp (by omega)
      omega

/-! ## Submit listener -/

theorem validateField_accepts (validator : JsString → String) (value : JsString)
    (view : FieldView) :
    ((validateField validator value view).1 = true ↔ validator (trim value) = "") ∧
    ((validateField validator value view).2.fieldError = true ↔
      validator (trim value) ≠ "") := by
  unfold validateField
  by_cases h : validator (trim value) = ""
  · simp [h, clearError]
  · simp [h, showError]

theorem validateCheckbox_accepts (validator : Bool → String) (checked : Bool)
    (view : FieldView) :
    ((validateCheckbox validator checked view).1 = true ↔ validator checked = "") ∧
    ((validateCheckbox validator checked view).2.fieldError = true ↔
      validator checked ≠ "") := by
  unfold validateCheckbox
  by_cases h : validator checked = ""
  · simp [h, clearError]
  · simp [h, showError]

/-- The view of every field after the submit listener, whichever branch it took. -/
theorem submit_view (defaults : FormValues) (form : Form) (f : FieldName) :
    (submit defaults form).1.view f =
      match f with
      | FieldName.firstName =>
        (validateField validators.firstName form.values.firstName (form.view f)).2
      | FieldName.lastName =>
        (validateField validators.lastName form.values.lastName (form.view f)).2
      | FieldName.email => (validateField validators.email form.values.email (form.view f)).2
      | FieldName.phone => (validateField validators.phone form.values.phone (form.view f)).2
      | FieldName.serviceType =>
        (validateField validators.serviceType form.values.serviceType (form.view f)).2
      | FieldName.patientType =>
        (validateField validators.patientType form.values.patientType (form.view f)).2
      | FieldName.consent =>
        (validateCheckbox validators.consent form.values.consent (form.view f)).2 := by
  unfold submit
  simp only
  split <;> cases f <;> simp [Form.setView]

theorem validateField_fst (validator : JsString → String) (value : JsString)
    (view : FieldView) :
    (validateField validator value view).1 = decide (validator (trim value) = "") := by
  unfold validateField
  by_cases h : validator (trim value) = ""
  · simp [h]
  · simp [h]

theorem validateCheckbox_fst (validator : Bool → String) (checked : Bool)
    (view : FieldView) :
    (validateCheckbox validator checked view).1 = decide (validator checked = "") := by
  unfold validateCheckbox
  by_cases h : validator checked = ""
  · simp [h]
  · simp [h]

/-- Whether the submit listener took the success branch: the conjunction that the seven
assignments to `isValid` build up. -/
theorem submit_valid (defaults : FormValues) (form : Form) :
    (submit defaults form).2 =
      (decide (validators.consent form.values.consent = "") &&
        (decide (validators.patientType (trim form.values.patientType) = "") &&
          (decide (validators.serviceType (trim form.values.serviceType) = "") &&
            (decide (validators.phone (trim form.values.phone) = "") &&
              (decide (validators.email (trim form.values.email) = "") &&
                (decide (validators.lastName (trim form.values.lastName) = "") &&
                  (decide (validators.firstName (trim form.values.firstName) = "") &&
                    true))))))) := by
  unfold submit
  simp only [validateField_fst, validateCheckbox_fst]
  split
  · rename_i h; exact h.symm
  · rename_i h; exact (Bool.eq_false_iff.mpr h).symm

theorem submit_branches (defaults : FormValues) (form : Form) :
    ((submit defaults form).2 = true →
      (submit defaults form).1.values = defaults ∧
      (submit defaults form).1.successShown = true) ∧
    ((submit defaults form).2 = false →
      (submit defaults form).1.values = form.values ∧
      (submit defaults form).1.successShown = form.successShown) := by
  unfold submit
  simp only
  split <;> simp [Form.setView]

/-- C17, counterexample: every validator accepts the value of its field as it stands in
`demoForm` (the phone value is nine digits and a space: ten characters of the phone
class), yet after the submit listener the phone field carries an error and the success
branch was not taken, because `validateField` trims the value before it validates. -/
theorem submit_rejects_what_validators_accept :
    (∀ f, validatorMessage f demoForm.values = "") ∧
    ((submit emptyValues demoForm).1.view FieldName.phone).fieldError = true ∧
    (submit emptyValues demoForm).2 = false := by
  refine ⟨?_, by decide, by decide⟩
  intro f
  cases f <;> decide

/-- C17, amended: for every combination of form values (all field and error elements
present), the submit listener validates all seven fields whatever the earlier results:
afterwards a field carries an error exactly when its validator rejects its value with
surrounding white space trimmed (the consent flag as it is), and the success branch
(success message shown, form reset) is taken exactly when no field is rejected in that
sense; otherwise the values and the success message are left as they were. -/
theorem submit_validates_every_field (defaults : FormValues) (form : Form) :
    (∀ f, ((submit defaults form).1.view f).fieldError = true ↔
      validatorMessage f (trimmedValues form.values) ≠ "") ∧
    ((submit defaults form).2 = true ↔
      ∀ f, validatorMessage f (trimmedValues form.values) = "") ∧
    ((submit defaults form).2 = true →
      (submit defaults form).1.values = defaults ∧
      (submit defaults form).1.successShown = true) ∧
    ((submit defaults form).2 = false →
      (submit defaults form).1.values = form.values ∧
      (submit defaults form).1.successShown = form.successShown) := by
  refine ⟨?_, ?_, (submit_branches defaults form).1, (submit_branches defaults form).2⟩
  · intro f
    rw [submit_view]
    cases f
    · exact (validateField_accepts _ _ _).2
    · exact (validateField_accepts _ _ _).2
    · exact (validateField_accepts _ _ _).2
    · exact (validateField_accepts _ _ _).2
    · exact (validateField_accepts _ _ _).2
    · exact (validateField_accepts _ _ _).2
    · exact (validateCheckbox_accepts _ _ _).2
  · rw [submit_valid]
    simp only [Bool.and_eq_true, decide_eq_true_eq, and_true]
    constructor
    · rintro ⟨h7, h6, h5, h4, h3, h2, h1⟩ f
      cases f
      · exact h1
      · exact h2
      · exact h3
      · exact h4
      · exact h5
      · exact h6
      · exact h7
    · intro h
      exact ⟨h FieldName.consent, h FieldName.patientType, h FieldName.serviceType,
        h FieldName.phone, h FieldName.email, h FieldName.lastName, h FieldName.firstName⟩

/-- Witness of C17 (amended): with ten digits before the trailing space the same form
passes, the space being trimmed away: the success branch is taken and the form reset. -/
theorem submit_validates_every_field_witness :
    (∀ f, validatorMessage f (trimmedValues
      { demoForm.values with phone := utf16 "1234567890 " }) = "") ∧
    (submit emptyValues
      { demoForm with values := { demoForm.values with phone := utf16 "1234567890 " } }).2
      = true ∧
    (submit emptyValues
      { demoForm with values := { demoForm.values with phone := utf16 "1234567890 " }
        }).1.values = emptyValues :=
  ⟨fun f => by cases f <;> decide, by decide,
    ((submit_validates_every_field emptyValues
      { demoForm with values := { demoForm.values with phone := utf16 "1234567890 " }
        }).2.2.1 (by decide)).1⟩

/-! ## The email pattern -/

theorem Lang_star_cls (p : CodeUnit → Bool) (s : JsString) :
    Regex.Lang (Regex.star (Regex.cls p)) s ↔ ∀ c ∈ s, p c = true := by
  induction s with
  | nil =>
    simp only [List.not_mem_nil, false_implies, implies_true, iff_true]
    exact (Regex.nullable_iff_Lang_nil _).mp rfl
  | cons d rest ih =>
    rw [Regex.Lang_star_cons]
    constructor
    · rintro ⟨x, y, hxy, hx, hy⟩
      simp only [Regex.Lang, List.cons.injEq] at hx
      obtain ⟨c, ⟨rfl, rfl⟩, hc⟩ := hx
      simp only [List.nil_append] at hxy
      subst hxy
      intro c hc2
      rcases List.mem_cons.mp hc2 with rfl | hmem
      · exact hc
      · exact ih.mp hy c hmem
    · intro h
      refine ⟨[], rest, rfl, ?_, ih.mpr (fun c hc => h c (List.mem_cons_of_mem _ hc))⟩
      simp only [Regex.Lang]
      exact ⟨d, rfl, h d (List.mem_cons_self _ _)⟩

theorem Lang_plus_cls (p : CodeUnit → Bool) (s : JsString) :
    Regex.Lang (Regex.plus (Regex.cls p)) s ↔ s ≠ [] ∧ ∀ c ∈ s, p c = true := by
  constructor
  · intro h
    simp only [Regex.plus] at h
    have h2 : ∃ x y, s = x ++ y ∧ Regex.Lang (Regex.cls p) x ∧
        Regex.Lang (Regex.star (Regex.cls p)) y := by
      simpa only [Regex.Lang] using h
    obtain ⟨x, y, rfl, hx, hy⟩ := h2
    simp only [Regex.Lang] at hx
    obtain ⟨c, rfl, hc⟩ := hx
    refine ⟨by simp, ?_⟩
    intro d hd
    rcases List.mem_cons.mp hd with rfl | hmem
    · exact hc
    · exact (Lang_star_cls p y).mp hy d hmem
  · rintro ⟨hne, h⟩
    cases s with
    | nil => exact absurd rfl hne
    | cons d rest =>
      have hrest := (Lang_star_cls p rest).mpr (fun c hc => h c (List.mem_cons_of_mem _ hc))
      have hd : Regex.Lang (Regex.cls p) [d] := by
        simp only [Regex.Lang]
        exact ⟨d, rfl, h d (List.mem_cons_self _ _)⟩
      show Regex.Lang (Regex.seq (Regex.cls p) (Regex.star (Regex.cls p))) (d :: rest)
      simp only [Regex.Lang]
      simp only [Regex.Lang] at hrest hd
      exact ⟨[d], rest, rfl, hd, hrest⟩

theorem Lang_chr (c : CodeUnit) (s : JsString) :
    Regex.Lang (Regex.chr c) s ↔ s = [c] := by
  simp only [Regex.chr, Regex.Lang, beq_iff_eq]
  constructor
  · rintro ⟨d, rfl, rfl⟩; rfl
  · intro h; exact ⟨c, h, rfl⟩

theorem Lang_seq (a b : Regex) (s : JsString) :
    Regex.Lang (Regex.seq a b) s ↔ ∃ x y, s = x ++ y ∧ Regex.Lang a x ∧ Regex.Lang b y := by
  simp only [Regex.Lang]

/-- The strings of the email pattern: three non-empty runs of characters that are neither
white space nor `@`, joined by an `@` and a `.`. -/
theorem Lang_emailRegex (s : JsString) :
    Regex.Lang emailRegex s ↔
      ∃ a b c, s = a ++ 64 :: (b ++ 46 :: c) ∧
        (a ≠ [] ∧ ∀ x ∈ a, notSpaceNorAt x = true) ∧
        (b ≠ [] ∧ ∀ x ∈ b, notSpaceNorAt x = true) ∧
        (c ≠ [] ∧ ∀ x ∈ c, notSpaceNorAt x = true) := by
  unfold emailRegex
  constructor
  · intro h
    obtain ⟨a, r1, rfl, ha, h1⟩ := (Lang_seq _ _ _).mp h
    obtain ⟨at1, r2, rfl, hat, h2⟩ := (Lang_seq _ _ _).mp h1
    obtain ⟨b, r3, rfl, hb, h3⟩ := (Lang_seq _ _ _).mp h2
    obtain ⟨dot, c, rfl, hdot, hc⟩ := (Lang_seq _ _ _).mp h3
    rw [Lang_chr] at hat hdot
    subst hat hdot
    exact ⟨a, b, c, rfl, (Lang_plus_cls _ a).mp ha, (Lang_plus_cls _ b).mp hb,
      (Lang_plus_cls _ c).mp hc⟩
  · rintro ⟨a, b, c, rfl, ha, hb, hc⟩
    refine (Lang_seq _ _ _).mpr ⟨a, _, rfl, (Lang_plus_cls _ a).mpr ha, ?_⟩
    refine (Lang_seq _ _ _).mpr ⟨[64], _, rfl, (Lang_chr 64 _).mpr rfl, ?_⟩
    refine (Lang_seq _ _ _).mpr ⟨b, _, rfl, (Lang_plus_cls _ b).mpr hb, ?_⟩
    exact (Lang_seq _ _ _).mpr ⟨[46], c, rfl, (Lang_chr 46 _).mpr rfl,
      (Lang_plus_cls _ c).mpr hc⟩

theorem notSpaceNorAt_iff (x : CodeUnit) :
    notSpaceNorAt x = true ↔ isWhiteSpace x = false ∧ x ≠ 64 := by
  simp [notSpaceNorAt]

theorem takeWhile_dropWhile_append (p : CodeUnit → Bool) (a : JsString) (y : CodeUnit)
    (r : JsString) (ha : ∀ x ∈ a, p x = true) (hy : p y = false) :
    (a ++ y :: r).takeWhile p = a ∧ (a ++ y :: r).dropWhile p = y :: r := by
  induction a with
  | nil => simp [List.takeWhile_cons, List.dropWhile_cons, hy]
  | cons d rest ih =>
    have hd := ha d (List.mem_cons_self _ _)
    obtain ⟨h1, h2⟩ := ih (fun x hx => ha x (List.mem_cons_of_mem _ hx))
    simp [List.takeWhile_cons, List.dropWhile_cons, hd, h1, h2]

theorem EmailShape_of_parts (a b c : JsString)
    (ha : a ≠ [] ∧ ∀ x ∈ a, notSpaceNorAt x = true)
    (hb : b ≠ [] ∧ ∀ x ∈ b, notSpaceNorAt x = true)
    (hc : c ≠ [] ∧ ∀ x ∈ c, notSpaceNorAt x = true) :
    EmailShape (a ++ 64 :: (b ++ 46 :: c)) := by
  have hsplit := takeWhile_dropWhile_append (fun x => x != 64) a 64 (b ++ 46 :: c)
    (fun x hx => by simpa using ((notSpaceNorAt_iff x).mp (ha.2 x hx)).2) (by simp)
  have hcount : ∀ l : JsString, (∀ x ∈ l, notSpaceNorAt x = true) → l.count 64 = 0 := by
    intro l hl
    rw [List.count_eq_zero]
    intro hmem
    exact ((notSpaceNorAt_iff 64).mp (hl 64 hmem)).2 rfl
  refine ⟨?_, ?_, ?_, ?_⟩
  · intro x hx
    simp only [List.mem_append, List.mem_cons] at hx
    rcases hx with hx | rfl | hx | rfl | hx
    · exact ((notSpaceNorAt_iff x).mp (ha.2 x hx)).1
    · decide
    · exact ((notSpaceNorAt_iff x).mp (hb.2 x hx)).1
    · decide
    · exact ((notSpaceNorAt_iff x).mp (hc.2 x hx)).1
  · simp [List.count_append, List.count_cons, hcount a ha.2, hcount b hb.2, hcount c hc.2]
  · unfold beforeAt
    rw [hsplit.1]
    exact ha.1
  · unfold afterAt
    rw [hsplit.2]
    refine ⟨b.length, List.length_pos.mpr hb.1, ?_, ?_⟩
    · have := List.length_pos.mpr hc.1
      simp only [List.tail_cons, List.length_append, List.length_cons]
      omega
    · rw [List.tail_cons, List.getElem?_append_right (le_refl _)]
      simp

theorem EmailShape_parts (s : JsString) (h : EmailShape s) :
    ∃ a b c, s = a ++ 64 :: (b ++ 46 :: c) ∧
      (a ≠ [] ∧ ∀ x ∈ a, notSpaceNorAt x = true) ∧
      (b ≠ [] ∧ ∀ x ∈ b, notSpaceNorAt x = true) ∧
      (c ≠ [] ∧ ∀ x ∈ c, notSpaceNorAt x = true) := by
  obtain ⟨hws, hcount, hbefore, k, hk0, hk1, hk⟩ := h
  have hsplit : s = beforeAt s ++ s.dropWhile (fun c => c != 64) :=
    (List.takeWhile_append_dropWhile _ s).symm
  have hmem : (64 : CodeUnit) ∈ s := List.count_pos_iff.mp (by omega)
  cases hds : s.dropWhile (fun c => c != 64) with
  | nil =>
    have := (List.dropWhile_eq_nil_iff.mp hds) 64 hmem
    simp at this
  | cons d r =>
    have hhead := List.head_dropWhile_not (fun c => c != 64) s (by rw [hds]; simp)
    have hd : d = 64 := by
      simp only [hds, List.head_cons] at hhead
      simpa using hhead
    subst hd
    have hafter : afterAt s = r := by unfold afterAt; rw [hds]; rfl
    rw [hafter] at hk1 hk
    rw [hds] at hsplit
    have hbefore64 : ∀ x ∈ beforeAt s, x ≠ 64 := by
      intro x hx
      have := List.mem_takeWhile_imp hx
      simpa using this
    have hr64 : (64 : CodeUnit) ∉ r := by
      have hc0 : (beforeAt s).count 64 = 0 :=
        List.count_eq_zero.mpr (fun hm => hbefore64 64 hm rfl)
      rw [hsplit, List.count_append, List.count_cons_self, hc0] at hcount
      exact List.count_eq_zero.mp (by omega)
    have hklt : k < r.length := by omega
    have hrk : r[k] = 46 := by
      have := List.getElem?_eq_some.mp hk
      obtain ⟨_, h2⟩ := this
      exact h2
    have hr : r = r.take k ++ 46 :: r.drop (k + 1) := by
      have h1 := (List.take_append_drop k r).symm
      rw [List.drop_eq_getElem_cons hklt, hrk] at h1
      exact h1
    have hinr : ∀ x ∈ r, notSpaceNorAt x = true := by
      intro x hx
      refine (notSpaceNorAt_iff x).mpr ⟨hws x ?_, fun h64 => hr64 (h64 ▸ hx)⟩
      rw [hsplit]
      exact List.mem_append_right _ (List.mem_cons_of_mem _ hx)
    refine ⟨beforeAt s, r.take k, r.drop (k + 1), ?_, ⟨hbefore, ?_⟩, ⟨?_, ?_⟩, ⟨?_, ?_⟩⟩
    · rw [← hr]; exact hsplit
    · intro x hx
      refine (notSpaceNorAt_iff x).mpr ⟨hws x ?_, hbefore64 x hx⟩
      rw [hsplit]
      exact List.mem_append_left _ hx
    · intro hnil
      have := congrArg List.length hnil
      simp only [List.length_take, List.length_nil] at this
      omega
    · intro x hx
      exact hinr x (List.mem_of_mem_take hx)
    · intro hnil
      have := congrArg List.length hnil
      simp only [List.length_drop, List.length_nil] at this
      omega
    · intro x hx
      exact hinr x (List.mem_of_mem_drop hx)

/-- C20: for every string, the email validator of `js/main.js` and `main.js.js`
(`validators.email`) and the one of `script.js` (`validateEmail`) accept it exactly when
it contains no white space, contains exactly one `@` with a non-empty part before it,
and the part after the `@` contains a `.` that is neither its first nor its last
character. -/
theorem email_validator_accepts_iff (s : JsString) :
    (validators.email s = "" ↔ EmailShape s) ∧ (validateEmail s = true ↔ EmailShape s) := by
  have hshape : Regex.test emailRegex s = true ↔ EmailShape s := by
    rw [Regex.test_iff_Lang, Lang_emailRegex]
    constructor
    · rintro ⟨a, b, c, rfl, ha, hb, hc⟩
      exact EmailShape_of_parts a b c ha hb hc
    · exact EmailShape_parts s
  refine ⟨?_, hshape⟩
  rw [← hshape]
  unfold validators.email
  by_cases h : Regex.test emailRegex s = true
  · simp [h]
  · rw [if_neg h]
    constructor
    · intro hmsg; exact absurd hmsg (by decide)
    · intro h2; exact absurd h2 h

/-! ## The phone pattern -/

theorem Lang_atLeast_cls (n : Nat) (p : CodeUnit → Bool) (s : JsString) :
    Regex.Lang (Regex.atLeast n (Regex.cls p)) s ↔
      n ≤ s.length ∧ ∀ c ∈ s, p c = true := by
  induction n generalizing s with
  | zero =>
    simp only [Regex.atLeast, Nat.zero_le, true_and]
    exact Lang_star_cls p s
  | succ n ih =>
    simp only [Regex.atLeast]
    rw [Lang_seq]
    constructor
    · rintro ⟨x, y, rfl, hx, hy⟩
      simp only [Regex.Lang] at hx
      obtain ⟨c, rfl, hc⟩ := hx
      obtain ⟨hlen, hall⟩ := (ih y).mp hy
      refine ⟨by simp only [List.singleton_append, List.length_cons]; omega, ?_⟩
      intro d hd
      rcases List.mem_cons.mp hd with rfl | hmem
      · exact hc
      · exact hall d hmem
    · rintro ⟨hlen, hall⟩
      cases s with
      | nil => simp at hlen
      | cons d rest =>
        refine ⟨[d], rest, rfl, ?_, (ih rest).mpr ⟨?_, ?_⟩⟩
        · simp only [Regex.Lang]
          exact ⟨d, rfl, hall d (List.mem_cons_self _ _)⟩
        · simp only [List.length_cons] at hlen
          omega
        · exact fun c hc => hall c (List.mem_cons_of_mem _ hc)

theorem phoneChar_iff (c : CodeUnit) :
    phoneChar c = true ↔
      (48 ≤ c ∧ c ≤ 57) ∨ isWhiteSpace c = true ∨ c = 45 ∨ c = 43 ∨ c = 40 ∨ c = 41 := by
  simp only [phoneChar, Bool.or_eq_true, Bool.and_eq_true, decide_eq_true_eq, beq_iff_eq]
  tauto

/-- C21: for every string, the phone validator of `js/main.js` and `main.js.js`
(`validators.phone`) and the one of `script.js` (`validatePhone`) accept it exactly when
it has at least 10 characters and each of them is a digit, a white space character, `-`,
`+`, `(` or `)`. No digit is required: ten hyphens are accepted, and they contain no
digit. -/
theorem phone_validator_accepts_iff (s : JsString) :
    (validators.phone s = "" ↔
      10 ≤ s.length ∧ ∀ c ∈ s,
        (48 ≤ c ∧ c ≤ 57) ∨ isWhiteSpace c = true ∨ c = 45 ∨ c = 43 ∨ c = 40 ∨ c = 41) ∧
    (validatePhone s = true ↔
      10 ≤ s.length ∧ ∀ c ∈ s,
        (48 ≤ c ∧ c ≤ 57) ∨ isWhiteSpace c = true ∨ c = 45 ∨ c = 43 ∨ c = 40 ∨ c = 41) ∧
    (validators.phone (utf16 "----------") = "" ∧ validatePhone (utf16 "----------") = true ∧
      ∀ c ∈ utf16 "----------", ¬ (48 ≤ c ∧ c ≤ 57)) := by
  have htest : Regex.test phoneRegex s = true ↔
      10 ≤ s.length ∧ ∀ c ∈ s,
        (48 ≤ c ∧ c ≤ 57) ∨ isWhiteSpace c = true ∨ c = 45 ∨ c = 43 ∨ c = 40 ∨ c = 41 := by
    rw [Regex.test_iff_Lang]
    unfold phoneRegex
    rw [Lang_atLeast_cls]
    constructor
    · rintro ⟨hlen, hall⟩
      exact ⟨hlen, fun c hc => (phoneChar_iff c).mp (hall c hc)⟩
    · rintro ⟨hlen, hall⟩
      exact ⟨hlen, fun c hc => (phoneChar_iff c).mpr (hall c hc)⟩
  refine ⟨?_, htest, by decide, by decide, by decide⟩
  rw [← htest]
  unfold validators.phone
  by_cases h : Regex.test phoneRegex s = true
  · simp [h]
  · rw [if_neg h]
    constructor
    · intro hmsg; exact absurd hmsg (by decide)
    · intro h2; exact absurd h2 h

end Forms
